import Mathlib

/-!
Statement formatter of falco (`formatter/statement_format.go`)

A shallow embedding of the statement-level pretty printer and the properties
of it that are stated in the specification.

Conventions of the embedding.

* Go `int` values (nest levels, blank-line counts, buffer lengths) are `Int`;
  nest levels stay far from the limits of the machine integer.
* A `bytes.Buffer` is the `String` written so far, `WriteString` is `++`.
* Every syntax node of Go embeds a pointer to its metadata record
  (`*ast.Meta`, returned by `GetMeta()`).  A node is embedded as that record
  together with the fields of its kind, and a function that receives a node
  pointer receives the two parts.  The syntax tree is a tree: no record is
  shared between two nodes.
* The formatter writes to the `Nest` field of metadata records
  (`c.Meta.Nest--`, `meta.Nest--`).  Every function that can reach such a
  write returns, next to its Go result, the syntax tree as it is left behind.
* Code of the package that lives in other files (indentation, comment and
  expression rendering, `Line`/`GroupedLines` serialisation, alignment,
  blank-line trimming) is a field of `Formatter`.
-/

namespace Falco

/-! ## Data model -/

/-- A comment token (`ast.Comment`). -/
structure Comment where
  Value : String
  deriving DecidableEq, Repr

/-- The type `ast.Comments`. -/
abbrev Comments := List Comment

/-- The metadata record `ast.Meta` carried by every node. -/
structure Meta where
  Leading : Comments
  Trailing : Comments
  Infix : Comments
  Nest : Int
  PreviousEmptyLines : Int
  deriving DecidableEq, Repr

/-- The fields of `ast.InfixExpression` read for a case test. -/
structure InfixExpression (ε : Type) where
  Operator : String
  Right : ε

mutual

/-- An `ast.Statement`: the metadata record and the node. -/
inductive Statement (ε : Type) : Type
  | mk (m : Meta) (n : Node ε)

/-- The fields of each statement kind dispatched on by `formatStatement`. -/
inductive Node (ε : Type) : Type
  | BlockStatement (Statements : StatementList ε)
  | ImportStatement (Name : String)
  | IncludeStatement (Module : ε)
  | DeclareStatement (Name : String) (ValueType : String)
  | SetStatement (Ident : String) (Operator : String) (Value : ε)
  | UnsetStatement (Ident : String)
  | RemoveStatement (Ident : String)
  | SwitchStatement (Control : ε) (Cases : CaseList ε)
  | RestartStatement
  | EsiStatement
  | AddStatement (Ident : String) (Operator : String) (Value : ε)
  | CallStatement (Subroutine : String)
  | ErrorStatement (Code : ε) (Argument : Option ε)
  | LogStatement (Value : ε)
  | ReturnStatement (ReturnExpression : Option ε)
  | SyntheticStatement (Value : ε)
  | SyntheticBase64Statement (Value : ε)
  | GotoStatement (Destination : String)
  | GotoDestinationStatement (Name : String)
  | FunctionCallStatement (Function : String) (Arguments : List ε)
  | IfStatement (i : IfFields ε)
  | BreakStatement

/-- A `*ast.BlockStatement`. -/
inductive BlockStatement (ε : Type) : Type
  | mk (m : Meta) (Statements : StatementList ε)

/-- The fields of an `ast.IfStatement` next to its metadata. -/
inductive IfFields (ε : Type) : Type
  | mk (Keyword : String) (Condition : ε) (Consequence : BlockStatement ε)
      (Another : IfStatementList ε) (Alternative : OptBlock ε)

/-- A `*ast.IfStatement`, as held in `Another`. -/
inductive IfStatement (ε : Type) : Type
  | mk (m : Meta) (i : IfFields ε)

/-- A `*ast.CaseStatement`; `Test` is `none` for `default`. -/
inductive CaseStatement (ε : Type) : Type
  | mk (m : Meta) (Test : Option (InfixExpression ε)) (Statements : StatementList ε)
      (Fallthrough : Bool)

/-- A slice `[]ast.Statement`. -/
inductive StatementList (ε : Type) : Type
  | nil
  | cons (s : Statement ε) (rest : StatementList ε)

/-- A slice `[]*ast.IfStatement`. -/
inductive IfStatementList (ε : Type) : Type
  | nil
  | cons (a : IfStatement ε) (rest : IfStatementList ε)

/-- A slice `[]*ast.CaseStatement`. -/
inductive CaseList (ε : Type) : Type
  | nil
  | cons (c : CaseStatement ε) (rest : CaseList ε)

/-- A `*ast.BlockStatement` that may be nil (`Alternative`). -/
inductive OptBlock (ε : Type) : Type
  | none
  | some (b : BlockStatement ε)

end

variable {ε : Type}

/-- The metadata record of a statement (`GetMeta()`). -/
def Statement.GetMeta : Statement ε → Meta
  | .mk m _ => m

/-- The metadata record of a block (`GetMeta()`). -/
def BlockStatement.GetMeta : BlockStatement ε → Meta
  | .mk m _ => m

/-- The metadata record of an else-if branch (`GetMeta()`). -/
def IfStatement.GetMeta : IfStatement ε → Meta
  | .mk m _ => m

/-- The metadata record of a case section. -/
def CaseStatement.GetMeta : CaseStatement ε → Meta
  | .mk m _ _ _ => m

/-- The elements of a statement slice, in order. -/
def StatementList.toList : StatementList ε → List (Statement ε)
  | .nil => []
  | .cons s rest => s :: rest.toList

/-- The elements of an else-if slice, in order. -/
def IfStatementList.toList : IfStatementList ε → List (IfStatement ε)
  | .nil => []
  | .cons a rest => a :: rest.toList

/-- The elements of a case slice, in order. -/
def CaseList.toList : CaseList ε → List (CaseStatement ε)
  | .nil => []
  | .cons c rest => c :: rest.toList

/-! ## Output model and configuration -/

/-- The configuration flags read by the statement formatter (`f.conf`). -/
structure Config where
  AlignTrailingComment : Bool
  ShouldUseUnset : Bool
  AlwaysNextLineElseIf : Bool
  ElseIf : Bool
  IndentCaseLabels : Bool
  ReturnStatementParenthesis : Bool
  IndentWidth : Int
  deriving DecidableEq, Repr

/-- One rendered statement: leading comments, own text, trailing comment. -/
structure Line where
  Leading : String
  Trailing : String
  Buffer : String
  deriving DecidableEq, Repr

/-- The type `Lines`: lines with no blank line between them. -/
abbrev Lines := List Line

/-- The type `GroupedLines`: the groups of a block body. -/
structure GroupedLines where
  Lines : List Lines
  deriving DecidableEq, Repr

/-- The formatter: its configuration, its state, and the functions of the
package that are defined outside `statement_format.go`. -/
structure Formatter (ε : Type) where
  conf : Config
  isFunctionalSubroutine : Bool
  /-- The method `f.indent(level)`. -/
  indent : Int → String
  /-- The method `f.formatComment(comments, sep, level)`. -/
  formatComment : Comments → String → Int → String
  /-- The method `f.trailing(comments)`. -/
  trailing : Comments → String
  /-- The method `f.formatString(s)`. -/
  formatString : ε → String
  /-- The call `f.formatExpression(e).String()`. -/
  exprString : ε → String
  /-- The call `f.formatExpression(e).ChunkedString(nest, offset)`. -/
  chunkedString : ε → Int → Int → String
  /-- The function `trimMutipleLineFeeds`. -/
  trimMutipleLineFeeds : String → String
  /-- The method `(*Line).String()`. -/
  lineString : Line → String
  /-- The method `(*GroupedLines).String()`. -/
  groupString : GroupedLines → String
  /-- The method `(*GroupedLines).Align()`, as the value it leaves. -/
  align : GroupedLines → GroupedLines

/-- The test `strings.Contains(s, "\n")`. -/
def containsLF (s : String) : Bool :=
  s.data.contains '\n'

/-- The value `buf.Len()`: the number of bytes written. -/
def bufLen (buf : String) : Int :=
  (buf.utf8ByteSize : Int)

/-! ## Per-kind renderers -/

/-- Format import statement. -/
def formatImportStatement (_f : Formatter ε) (Name : String) : String :=
  "import " ++ Name ++ ";"

/-- Format include statement. -/
def formatIncludeStatement (f : Formatter ε) (Module : ε) : String :=
  "include " ++ f.formatString Module ++ ";"

/-- Format declare local variable statement. -/
def formatDeclareStatement (_f : Formatter ε) (Name ValueType : String) : String :=
  ("declare local " ++ Name) ++ (" " ++ ValueType) ++ ";"

/-- Format set statement. -/
def formatSetStatement (f : Formatter ε) (m : Meta) (Ident Operator : String) (Value : ε) :
    String :=
  let buf := ("set " ++ Ident) ++ (" " ++ Operator ++ " ")
  buf ++ f.chunkedString Value m.Nest (bufLen buf) ++ ";"

/-- Format unset statement. -/
def formatUnsetStatement (_f : Formatter ε) (Ident : String) : String :=
  ("unset " ++ Ident) ++ ";"

/-- Format remove statement. -/
def formatRemoveStatement (f : Formatter ε) (Ident : String) : String :=
  (if f.conf.ShouldUseUnset then "unset " ++ Ident else "remove " ++ Ident) ++ ";"

/-- Format restart statement. -/
def formatRestartStatement (_f : Formatter ε) : String :=
  "restart;"

/-- Format esi statement. -/
def formatEsiStatement (_f : Formatter ε) : String :=
  "esi;"

/-- Format add statement. -/
def formatAddStatement (f : Formatter ε) (m : Meta) (Ident Operator : String) (Value : ε) :
    String :=
  let buf := ("add " ++ Ident) ++ (" " ++ Operator ++ " ")
  buf ++ f.chunkedString Value m.Nest (bufLen buf) ++ ";"

/-- Format call statement. -/
def formatCallStatement (_f : Formatter ε) (Subroutine : String) : String :=
  ("call " ++ Subroutine) ++ ";"

/-- Format error statement. -/
def formatErrorStatement (f : Formatter ε) (Code : ε) (Argument : Option ε) : String :=
  let buf := "error " ++ f.exprString Code
  let buf := match Argument with
    | some a => buf ++ (" " ++ f.exprString a)
    | none => buf
  buf ++ ";"

/-- Format log statement. -/
def formatLogStatement (f : Formatter ε) (m : Meta) (Value : ε) : String :=
  let buf := "log "
  buf ++ f.chunkedString Value m.Nest (bufLen buf) ++ ";"

/-- Format return statement. -/
def formatReturnStatement (f : Formatter ε) (ReturnExpression : Option ε) : String :=
  let buf := "return"
  let buf := match ReturnExpression with
    | some e =>
      if f.conf.ReturnStatementParenthesis && !f.isFunctionalSubroutine then
        buf ++ " (" ++ f.exprString e ++ ")"
      else
        buf ++ " " ++ f.exprString e ++ ""
    | none => buf
  buf ++ ";"

/-- Format synthetic statement. -/
def formatSyntheticStatement (f : Formatter ε) (m : Meta) (Value : ε) : String :=
  let buf := "synthetic "
  buf ++ f.chunkedString Value m.Nest (bufLen buf) ++ ";"

/-- Format synthetic.base64 statement. -/
def formatSyntheticBase64Statement (f : Formatter ε) (m : Meta) (Value : ε) : String :=
  let buf := "synthetic.base64 "
  buf ++ f.chunkedString Value m.Nest (bufLen buf) ++ ";"

/-- Format goto statement. -/
def formatGotoStatement (_f : Formatter ε) (Destination : String) : String :=
  ("goto " ++ Destination) ++ ";"

/-- Format goto destination statement. -/
def formatGotoDestinationStatement (_f : Formatter ε) (Name : String) : String :=
  Name

/-- The argument loop of `formatFunctionCallStatement`: `i` is the index of the
head of the remaining arguments, `n` is `len(stmt.Arguments)`. -/
def formatFunctionCallArguments (f : Formatter ε) (m : Meta) (length : Int) (n : Int) :
    Int → List ε → String → String
  | _, [], buf => buf
  | i, a :: rest, buf =>
    let buf := buf ++ f.chunkedString a m.Nest length
    let buf := if i ≠ n - 1 then buf ++ ", " else buf
    formatFunctionCallArguments f m length n (i + 1) rest buf

/-- Format function calling statement. -/
def formatFunctionCallStatement (f : Formatter ε) (m : Meta) (Function : String)
    (Arguments : List ε) : String :=
  let buf := Function ++ "("
  let length := bufLen buf
  let buf := formatFunctionCallArguments f m length Arguments.length 0 Arguments buf
  buf ++ ");"

/-! ## Parts of the recursive renderers that follow their loops -/

/-- The part of `formatStatement` shared by every statement that is not a
block: the leading comments, the indentation with the blank-line marker, the
text of the kind, and the trailing comments of the owner. -/
def statementLine (f : Formatter ε) (m : Meta) (text : String) (trailingNode : Meta) : Line :=
  { Leading := f.formatComment m.Leading "\n" m.Nest
    Buffer :=
      (if m.PreviousEmptyLines > 0 then "\n" ++ f.indent m.Nest else f.indent m.Nest) ++ text
    Trailing := f.trailing trailingNode.Trailing }

/-- The `Line` that `formatStatement` returns for a block. -/
def blockLine (f : Formatter ε) (m : Meta) (text : String) : Line :=
  { Leading := f.formatComment m.Leading "\n" (m.Nest - 1)
    Trailing := f.trailing m.Trailing
    Buffer := f.indent (m.Nest - 1) ++ text }

/-- The groups after a statement loop: `if len(lines) > 0` the open run of
lines is appended as the last group. -/
def closeGroups (r : List Lines × Lines) : GroupedLines :=
  if r.2.length > 0 then ⟨r.1 ++ [r.2]⟩ else ⟨r.1⟩

/-- The call `group.Align()` under `f.conf.AlignTrailingComment`. -/
def alignGroups (f : Formatter ε) (group : GroupedLines) : GroupedLines :=
  if f.conf.AlignTrailingComment then f.align group else group

/-- The untrimmed buffer of `formatBlockStatement`, from the groups built by
its loop. -/
def blockBuffer (f : Formatter ε) (m : Meta) (r : List Lines × Lines) : String :=
  let buf := "\x7b\n" ++ f.groupString (alignGroups f (closeGroups r))
  let buf := if m.Infix.length > 0 then buf ++ f.formatComment m.Infix "\n" m.Nest else buf
  buf ++ f.indent (m.Nest - 1) ++ "\x7d"

/-- The text of `formatBlockStatement`, from the groups built by its loop. -/
def blockText (f : Formatter ε) (m : Meta) (r : List Lines × Lines) : String :=
  f.trimMutipleLineFeeds (blockBuffer f m r)

/-- The untrimmed buffer of `formatCaseSectionStatements`, from the groups
built by its loop. -/
def caseSectionBuffer (f : Formatter ε) (m : Meta) (Fallthrough : Bool)
    (r : List Lines × Lines) : String :=
  let buf := f.groupString (alignGroups f (closeGroups r))
  if Fallthrough then buf ++ f.indent (m.Nest + 1) ++ "fallthrough;" else buf

/-- The text of `formatCaseSectionStatements`, from the groups built by its
loop. -/
def caseSectionText (f : Formatter ε) (m : Meta) (Fallthrough : Bool)
    (r : List Lines × Lines) : String :=
  f.trimMutipleLineFeeds (caseSectionBuffer f m Fallthrough r)

/-- The write `c.Meta.Nest--` / `meta.Nest--` made when `IndentCaseLabels` is
not set. -/
def caseNest (f : Formatter ε) (m : Meta) : Meta :=
  if !f.conf.IndentCaseLabels then { m with Nest := m.Nest - 1 } else m

/-- The label of a case section written by `formatSwitchStatement`. -/
def caseLabel (f : Formatter ε) (buf : String) (Test : Option (InfixExpression ε)) : String :=
  match Test with
  | some t =>
    let buf := buf ++ "case "
    let buf := if t.Operator = "~" then buf ++ "~ " else buf
    buf ++ f.exprString t.Right ++ ":\n"
  | none => buf ++ "default:\n"

/-- The end of `formatSwitchStatement`, after the loop over the cases. -/
def switchClose (f : Formatter ε) (m : Meta) (buf : String) : String :=
  let buf := if m.Infix.length > 0 then buf ++ f.formatComment m.Infix "\n" (m.Nest + 1) else buf
  buf ++ f.indent m.Nest ++ "\x7d"

/-- The condition of an if or else-if branch: inline, or on a line of its own
when the chunk has a line break.  `nest` is the level of the chunk line and
`close` the level of the closing parenthesis. -/
def writeCondition (f : Formatter ε) (buf chunk : String) (nest close : Int) : String :=
  if containsLF chunk then
    buf ++ ("\n" ++ f.indent (nest + 1) ++ chunk ++ "\n") ++ (f.indent close ++ ") ")
  else
    buf ++ (chunk ++ ") ")

/-- The text written before the keyword of an else-if branch or of else. -/
def writeBranchLead (f : Formatter ε) (buf : String) (m : Meta) : String :=
  if m.Leading.length > 0 ∨ f.conf.AlwaysNextLineElseIf = true then
    buf ++ "\n" ++ f.formatComment m.Leading "\n" m.Nest ++ f.indent m.Nest
  else
    buf ++ " "

/-- The node whose trailing comments an if statement carries. -/
def IfFields.trailingNode : IfFields ε → Meta
  | .mk _ _ Consequence Another Alternative =>
    match Alternative with
    | .some b => b.GetMeta
    | .none =>
      match Another.toList.getLast? with
      | some a => a.GetMeta
      | none => Consequence.GetMeta

/-! ## The recursive renderers

Each function returns its Go result and the node it was given as the call
leaves it. -/

mutual

/-- Format VCL statements: `formatStatement(stmt)`. -/
def formatStatement (f : Formatter ε) : Statement ε → Line × Statement ε
  | .mk m n =>
    let r := formatStatementWith f m n
    (r.1, .mk m r.2)

/-- The body of `formatStatement` for the statement with metadata record `m`
and node `n`. -/
def formatStatementWith (f : Formatter ε) (m : Meta) : Node ε → Line × Node ε
  | .BlockStatement ss =>
    -- `f.formatBlockStatement(block)`, see `formatBlockStatement`
    let r := formatBlockLines f ss [] []
    (blockLine f m (blockText f m r.1), .BlockStatement r.2)
  | .ImportStatement Name =>
    (statementLine f m (formatImportStatement f Name) m, .ImportStatement Name)
  | .IncludeStatement Module =>
    (statementLine f m (formatIncludeStatement f Module) m, .IncludeStatement Module)
  | .DeclareStatement Name ValueType =>
    (statementLine f m (formatDeclareStatement f Name ValueType) m,
      .DeclareStatement Name ValueType)
  | .SetStatement Ident Operator Value =>
    (statementLine f m (formatSetStatement f m Ident Operator Value) m,
      .SetStatement Ident Operator Value)
  | .UnsetStatement Ident =>
    (statementLine f m (formatUnsetStatement f Ident) m, .UnsetStatement Ident)
  | .RemoveStatement Ident =>
    (statementLine f m (formatRemoveStatement f Ident) m, .RemoveStatement Ident)
  | .SwitchStatement Control Cases =>
    -- `f.formatSwitchStatement(t)`, see `formatSwitchStatement`
    let r := formatSwitchCases f Cases ("switch (" ++ f.exprString Control ++ ") \x7b\n")
    (statementLine f m (switchClose f m r.1) m, .SwitchStatement Control r.2)
  | .RestartStatement =>
    (statementLine f m (formatRestartStatement f) m, .RestartStatement)
  | .EsiStatement =>
    (statementLine f m (formatEsiStatement f) m, .EsiStatement)
  | .AddStatement Ident Operator Value =>
    (statementLine f m (formatAddStatement f m Ident Operator Value) m,
      .AddStatement Ident Operator Value)
  | .CallStatement Subroutine =>
    (statementLine f m (formatCallStatement f Subroutine) m, .CallStatement Subroutine)
  | .ErrorStatement Code Argument =>
    (statementLine f m (formatErrorStatement f Code Argument) m, .ErrorStatement Code Argument)
  | .LogStatement Value =>
    (statementLine f m (formatLogStatement f m Value) m, .LogStatement Value)
  | .ReturnStatement ReturnExpression =>
    (statementLine f m (formatReturnStatement f ReturnExpression) m,
      .ReturnStatement ReturnExpression)
  | .SyntheticStatement Value =>
    (statementLine f m (formatSyntheticStatement f m Value) m, .SyntheticStatement Value)
  | .SyntheticBase64Statement Value =>
    (statementLine f m (formatSyntheticBase64Statement f m Value) m,
      .SyntheticBase64Statement Value)
  | .GotoStatement Destination =>
    (statementLine f m (formatGotoStatement f Destination) m, .GotoStatement Destination)
  | .GotoDestinationStatement Name =>
    (statementLine f m (formatGotoDestinationStatement f Name) m,
      .GotoDestinationStatement Name)
  | .FunctionCallStatement Function Arguments =>
    (statementLine f m (formatFunctionCallStatement f m Function Arguments) m,
      .FunctionCallStatement Function Arguments)
  | .IfStatement i =>
    let r := formatIfStatement f m i
    (statementLine f m r.1 r.2.trailingNode, .IfStatement r.2)
  | .BreakStatement =>
    -- no case of the type switch: nothing is appended to the buffer
    (statementLine f m "" m, .BreakStatement)

/-- Format block statement: `formatBlockStatement(stmt)`. -/
def formatBlockStatement (f : Formatter ε) : BlockStatement ε → String × BlockStatement ε
  | .mk m ss =>
    let r := formatBlockLines f ss [] []
    (blockText f m r.1, .mk m r.2)

/-- The loop of `formatBlockStatement` over `stmt.Statements`, from the
groups `group.Lines` and the open run `lines` built so far. -/
def formatBlockLines (f : Formatter ε) :
    StatementList ε → List Lines → Lines → (List Lines × Lines) × StatementList ε
  | .nil, group, lines => ((group, lines), .nil)
  | .cons s rest, group, lines =>
    let gl : List Lines × Lines :=
      if s.GetMeta.PreviousEmptyLines > 0 then (group ++ [lines], []) else (group, lines)
    let r := formatStatement f s
    let rr := formatBlockLines f rest gl.1 (gl.2 ++ [r.1])
    (rr.1, .cons r.2 rr.2)

/-- Format if statement: `formatIfStatement(stmt)` for the statement with
metadata record `m`. -/
def formatIfStatement (f : Formatter ε) (m : Meta) : IfFields ε → String × IfFields ε
  | .mk Keyword Condition Consequence Another Alternative =>
    let buf := Keyword ++ " ("
    let chunk := f.chunkedString Condition m.Nest (m.Nest * f.conf.IndentWidth)
    let buf := writeCondition f buf chunk m.Nest m.Nest
    let rc := formatBlockStatement f Consequence
    let buf := buf ++ rc.1
    -- else if, elseif, elsif
    let ra := formatAnother f m Another buf
    -- else
    match Alternative with
    | .some b =>
      let buf := writeBranchLead f ra.1 b.GetMeta
      let buf := buf ++ "else "
      let rb := formatBlockStatement f b
      (buf ++ rb.1, .mk Keyword Condition rc.2 ra.2 (.some rb.2))
    | .none => (ra.1, .mk Keyword Condition rc.2 ra.2 .none)

/-- The loop of `formatIfStatement` over `stmt.Another`; `m` is the metadata
record of the if statement itself. -/
def formatAnother (f : Formatter ε) (m : Meta) :
    IfStatementList ε → String → String × IfStatementList ε
  | .nil, buf => (buf, .nil)
  | .cons (.mk am (.mk Keyword Condition Consequence Another Alternative)) rest, buf =>
    let buf := writeBranchLead f buf am
    let keyword := if f.conf.ElseIf then "else if" else Keyword
    let chunk := f.chunkedString Condition am.Nest (am.Nest * f.conf.IndentWidth)
    let buf := buf ++ (keyword ++ " (")
    let buf := writeCondition f buf chunk am.Nest m.Nest
    let rc := formatBlockStatement f Consequence
    let buf := buf ++ rc.1
    let rr := formatAnother f m rest buf
    (rr.1, .cons (.mk am (.mk Keyword Condition rc.2 Another Alternative)) rr.2)

/-- The loop of `formatSwitchStatement` over `stmt.Cases`. -/
def formatSwitchCases (f : Formatter ε) : CaseList ε → String → String × CaseList ε
  | .nil, buf => (buf, .nil)
  | .cons (.mk cm Test Statements Fallthrough) rest, buf =>
    -- If indent_case_labels is false, subtract 1 nest level
    let cm := caseNest f cm
    let buf := buf ++ f.formatComment cm.Leading "\n" cm.Nest
    let buf := buf ++ f.indent cm.Nest
    let buf := caseLabel f buf Test
    -- `f.formatCaseSectionStatements(c)`, see `formatCaseSectionStatements`
    let r := formatCaseLines f Statements [] []
    let buf := buf ++ caseSectionText f cm Fallthrough r.1
    let rr := formatSwitchCases f rest buf
    (rr.1, .cons (.mk cm Test r.2 Fallthrough) rr.2)

/-- The loop of `formatCaseSectionStatements` over `cs.Statements`, from the
groups `group.Lines` and the open run `lines` built so far. -/
def formatCaseLines (f : Formatter ε) :
    StatementList ε → List Lines → Lines → (List Lines × Lines) × StatementList ε
  | .nil, group, lines => ((group, lines), .nil)
  | .cons (.mk sm n) rest, group, lines =>
    -- If indent_case_labels is false, subtract 1 nest level
    let meta := caseNest f sm
    let gl : List Lines × Lines :=
      if meta.PreviousEmptyLines > 0 then (group ++ [lines], []) else (group, lines)
    -- need to plus 1 to nested indent because parser won't increase nest level
    let Leading := f.formatComment meta.Leading "\n" (meta.Nest + 1)
    let Trailing := f.formatComment meta.Trailing "\n" (meta.Nest + 1)
    match n with
    | .BreakStatement =>
      let line : Line :=
        { Leading := Leading, Trailing := Trailing
          Buffer := f.indent (meta.Nest + 1) ++ "break;" }
      let rr := formatCaseLines f rest gl.1 (gl.2 ++ [line])
      (rr.1, .cons (.mk meta .BreakStatement) rr.2)
    | n =>
      let r := formatStatementWith f meta n
      let line : Line :=
        { Leading := Leading, Trailing := Trailing, Buffer := f.lineString r.1 }
      let rr := formatCaseLines f rest gl.1 (gl.2 ++ [line])
      (rr.1, .cons (.mk meta r.2) rr.2)

end

/-- Format switch statement: `formatSwitchStatement(stmt)` for the statement
with metadata record `m`. -/
def formatSwitchStatement (f : Formatter ε) (m : Meta) (Control : ε) (Cases : CaseList ε) :
    String × CaseList ε :=
  let r := formatSwitchCases f Cases ("switch (" ++ f.exprString Control ++ ") \x7b\n")
  (switchClose f m r.1, r.2)

/-- Format case statement inside switch statement:
`formatCaseSectionStatements(cs)` for the section with metadata record `m`. -/
def formatCaseSectionStatements (f : Formatter ε) (m : Meta) (Statements : StatementList ε)
    (Fallthrough : Bool) : String × StatementList ε :=
  let r := formatCaseLines f Statements [] []
  (caseSectionText f m Fallthrough r.1, r.2)

/-! ## A concrete formatter

Instances of the functions that `Formatter` takes as fields, used to evaluate
the renderers on concrete syntax trees.  Expressions are their own text. -/

namespace Example

/-- Drops every line feed that follows two line feeds. -/
def trimRuns : Nat → List Char → List Char
  | _, [] => []
  | k, c :: rest =>
    if c = '\n' then (if 2 ≤ k then trimRuns k rest else c :: trimRuns (k + 1) rest)
    else c :: trimRuns 0 rest

/-- Modelled from the spec: `indent(nestLevel)` is whitespace proportional to
the nest level and the configured indent width (the indentation utility is not
part of `statement_format.go`). -/
def indent (width : Int) (level : Int) : String :=
  String.mk (List.replicate (level * width).toNat ' ')

/-- Modelled from the spec: the comment renderer puts each token on its own
indented line and yields the empty string for an empty token list (the
renderer is not part of `statement_format.go`). -/
def formatComment (width : Int) (cs : Comments) (sep : String) (level : Int) : String :=
  String.join (cs.map (fun c => indent width level ++ c.Value ++ sep))

/-- Modelled from the spec: the rendered trailing comment, empty when there is
none (`f.trailing` is not part of `statement_format.go`). -/
def trailing (cs : Comments) : String :=
  String.join (cs.map (fun c => " " ++ c.Value))

/-- Modelled from the spec: a `Line` is serialised as its leading comment
text, its buffer and its trailing comment (`Line.String` is not part of
`statement_format.go`). -/
def lineString (l : Line) : String :=
  l.Leading ++ l.Buffer ++ l.Trailing

/-- Modelled from the spec: the groups are serialised in order, one line of
output per `Line` (`GroupedLines.String` is not part of
`statement_format.go`). -/
def groupString (g : GroupedLines) : String :=
  String.join (g.Lines.map (fun ls => String.join (ls.map (fun l => lineString l ++ "\n"))))

/-- The formatter with configuration `c` over the instances above. -/
def formatter (c : Config) : Formatter String :=
  { conf := c
    isFunctionalSubroutine := false
    indent := indent c.IndentWidth
    formatComment := formatComment c.IndentWidth
    trailing := trailing
    formatString := fun s => "\"" ++ s ++ "\""
    exprString := fun e => e
    chunkedString := fun e _ _ => e
    trimMutipleLineFeeds := fun s => String.mk (trimRuns 0 s.data)
    lineString := lineString
    groupString := groupString
    align := fun g => g }

/-- A configuration with every flag off except `IndentCaseLabels`, which is
`b`; the indent width is 2. -/
def conf (b : Bool) : Config :=
  { AlignTrailingComment := false
    ShouldUseUnset := false
    AlwaysNextLineElseIf := false
    ElseIf := false
    IndentCaseLabels := b
    ReturnStatementParenthesis := false
    IndentWidth := 2 }

/-- A metadata record without comments at nest level `n`, preceded by `e`
blank lines. -/
def node (n : Int) (e : Int) : Meta :=
  { Leading := [], Trailing := [], Infix := [], Nest := n, PreviousEmptyLines := e }

/-- A metadata record at nest level `n` with the trailing comment `c`. -/
def commented (n : Int) (c : String) : Meta :=
  { Leading := [], Trailing := [⟨c⟩], Infix := [], Nest := n, PreviousEmptyLines := 0 }

end Example

/-! ## Concrete syntax trees -/

namespace Example

/-- An empty block at nest level `n` with the trailing comment `c`. -/
def emptyBlock (n : Int) (c : String) : BlockStatement String :=
  .mk (commented n c) .nil

/-- The chain `if (a) {} // c1` `else if (b) {} // c2` `else {} // c3`. -/
def ifChain : Statement String :=
  .mk (node 1 0) (.IfStatement (.mk "if" "a" (emptyBlock 2 "// c1")
    (.cons (.mk (commented 1 "// x") (.mk "else if" "b" (emptyBlock 2 "// c2") .nil .none)) .nil)
    (.some (emptyBlock 2 "// c3"))))

/-- Five statements at nest level 1; blank lines precede those at positions 1
and 3. -/
def five : StatementList String :=
  .cons (.mk (node 1 0) .EsiStatement)
    (.cons (.mk (node 1 1) .RestartStatement)
      (.cons (.mk (node 1 0) (.CallStatement "a"))
        (.cons (.mk (node 1 2) (.CallStatement "b"))
          (.cons (.mk (node 1 0) (.CallStatement "c")) .nil))))

/-- The case body `esi; break;`: `esi` at nest level 3, `break` at nest
level 2. -/
def body : StatementList String :=
  .cons (.mk (node 3 0) .EsiStatement) (.cons (.mk (node 2 0) .BreakStatement) .nil)

/-- The case sections of `switch (x) { case "1": esi; break; }`: one section
at nest level 2 with the body `body`. -/
def cases : CaseList String :=
  .cons (.mk (node 2 0) (some ⟨"==", "\"1\""⟩) body false) .nil

/-- The case sections of `switch (x) { case "1": if (a) { break; } }`: the
section at nest level 2, the if statement at 3, its block and the `break`
inside it at 4. -/
def casesBreakInIf : CaseList String :=
  .cons (.mk (node 2 0) (some ⟨"==", "\"1\""⟩)
    (.cons (.mk (node 3 0) (.IfStatement (.mk "if" "a"
      (.mk (node 4 0) (.cons (.mk (node 4 0) .BreakStatement) .nil)) .nil .none))) .nil)
    false) .nil

/-- The case body `esi; // c`: the statement `esi` at nest level 3 with a
trailing comment. -/
def bodyCommented : StatementList String :=
  .cons (.mk (commented 3 "// c") .EsiStatement) .nil

/-- The case sections of `switch (x) { case "1": esi; // c }`. -/
def casesCommented : CaseList String :=
  .cons (.mk (node 2 0) (some ⟨"==", "\"1\""⟩) bodyCommented false) .nil

/-- The configuration `conf true` with `ReturnStatementParenthesis` and
`ShouldUseUnset` set to `b`. -/
def confWith (b : Bool) : Config :=
  { conf true with ReturnStatementParenthesis := b, ShouldUseUnset := b }

/-- An empty block at nest level `n` without comments. -/
def plainBlock (n : Int) : BlockStatement String :=
  .mk (node n 0) .nil

/-- The if statement `if (a &&\n b) {}` at nest level 1, its condition
rendered on two lines. -/
def ifWrapped : IfFields String :=
  .mk "if" "a &&\n b" (plainBlock 2) .nil .none

/-- An else-if branch `elsif (b) {}` with metadata record `am`. -/
def elsif (am : Meta) : IfStatement String :=
  .mk am (.mk "elsif" "b" (plainBlock 2) .nil .none)

/-- A metadata record at nest level `n` with the leading comment `c`. -/
def led (n : Int) (c : String) : Meta :=
  { Leading := [⟨c⟩], Trailing := [], Infix := [], Nest := n, PreviousEmptyLines := 0 }

/-- The configuration `conf true` with `ElseIf` set to `b`. -/
def confElseIf (b : Bool) : Config :=
  { conf true with ElseIf := b }

/-- The if statement at nest level 1 whose else-if branch, at nest level 2,
has the condition `b &&\n c` rendered on two lines:
`if (a) {} elsif (b &&\n c) {}`. -/
def ifElsifWrapped : IfFields String :=
  .mk "if" "a" (plainBlock 2)
    (.cons (.mk (node 2 0) (.mk "elsif" "b &&\n c" (plainBlock 3) .nil .none)) .nil) .none

/-- The case sections of
`switch (x) { case "1": esi; fallthrough; default: esi; break; }`. -/
def casesFallthrough : CaseList String :=
  .cons (.mk (node 2 0) (some ⟨"==", "\"1\""⟩) (.cons (.mk (node 3 0) .EsiStatement) .nil) true)
    (.cons (.mk (node 2 0) none body false) .nil)

/-- The configuration `conf true` with `AlwaysNextLineElseIf` set. -/
def confNextLine : Config :=
  { conf true with AlwaysNextLineElseIf := true }

end Example

/-! ## Grouping by blank lines, on plain lists -/

/-- The grouping step of the statement loops on a plain list: an element that
satisfies `p` closes the open run before it is appended. -/
def groupRuns {α : Type} (p : α → Bool) : List α → List (List α) → List α →
    List (List α) × List α
  | [], g, l => (g, l)
  | x :: xs, g, l =>
    if p x then groupRuns p xs (g ++ [l]) ([] ++ [x]) else groupRuns p xs g (l ++ [x])

/-- The test `s.GetMeta().PreviousEmptyLines > 0`. -/
def startsGroup (s : Statement ε) : Bool :=
  decide (s.GetMeta.PreviousEmptyLines > 0)

/-- The invariant of the grouping loop: inside a run no element but the first
satisfies `p`, every closed run but the first starts with an element that
satisfies `p`, and so does the open run once a run has been closed. -/
def RunsInv {α : Type} (p : α → Bool) (g : List (List α)) (l : List α) : Prop :=
  (∀ r ∈ g, ∀ x ∈ r.tail, p x = false) ∧ (∀ x ∈ l.tail, p x = false) ∧
  (∀ r ∈ g.tail, ∃ x t, r = x :: t ∧ p x = true) ∧
  (g ≠ [] → ∃ x t, l = x :: t ∧ p x = true)

/-! ## The nest levels that formatting a switch leaves behind -/

/-- The metadata record after the write `Nest--` made when case labels are
not indented (`keep = false`); the record itself when they are. -/
def Meta.lowered (keep : Bool) (m : Meta) : Meta :=
  if !keep then { m with Nest := m.Nest - 1 } else m

mutual

/-- The statement with every case section below it lowered. -/
def Statement.lowered (keep : Bool) : Statement ε → Statement ε
  | .mk m n => .mk m (n.lowered keep)

/-- The node with every case section below it lowered: in every switch, the
nest level of each case section and of each statement directly in a case body
is one less when `keep = false`. -/
def Node.lowered (keep : Bool) : Node ε → Node ε
  | .BlockStatement ss => .BlockStatement (ss.lowered keep)
  | .SwitchStatement Control Cases => .SwitchStatement Control (Cases.lowered keep)
  | .IfStatement i => .IfStatement (i.lowered keep)
  | .ImportStatement Name => .ImportStatement Name
  | .IncludeStatement Module => .IncludeStatement Module
  | .DeclareStatement Name ValueType => .DeclareStatement Name ValueType
  | .SetStatement Ident Operator Value => .SetStatement Ident Operator Value
  | .UnsetStatement Ident => .UnsetStatement Ident
  | .RemoveStatement Ident => .RemoveStatement Ident
  | .RestartStatement => .RestartStatement
  | .EsiStatement => .EsiStatement
  | .AddStatement Ident Operator Value => .AddStatement Ident Operator Value
  | .CallStatement Subroutine => .CallStatement Subroutine
  | .ErrorStatement Code Argument => .ErrorStatement Code Argument
  | .LogStatement Value => .LogStatement Value
  | .ReturnStatement ReturnExpression => .ReturnStatement ReturnExpression
  | .SyntheticStatement Value => .SyntheticStatement Value
  | .SyntheticBase64Statement Value => .SyntheticBase64Statement Value
  | .GotoStatement Destination => .GotoStatement Destination
  | .GotoDestinationStatement Name => .GotoDestinationStatement Name
  | .FunctionCallStatement Function Arguments => .FunctionCallStatement Function Arguments
  | .BreakStatement => .BreakStatement

/-- The block with every case section below it lowered. -/
def BlockStatement.lowered (keep : Bool) : BlockStatement ε → BlockStatement ε
  | .mk m ss => .mk m (ss.lowered keep)

/-- The statements of a block with every case section below them lowered. -/
def StatementList.lowered (keep : Bool) : StatementList ε → StatementList ε
  | .nil => .nil
  | .cons s rest => .cons (s.lowered keep) (rest.lowered keep)

/-- The if statement with every case section below its blocks lowered. -/
def IfFields.lowered (keep : Bool) : IfFields ε → IfFields ε
  | .mk Keyword Condition Consequence Another Alternative =>
    .mk Keyword Condition (Consequence.lowered keep) (Another.lowered keep)
      (Alternative.lowered keep)

/-- The else-if branches with every case section below their consequence
blocks lowered. -/
def IfStatementList.lowered (keep : Bool) : IfStatementList ε → IfStatementList ε
  | .nil => .nil
  | .cons (.mk am (.mk Keyword Condition Consequence Another Alternative)) rest =>
    .cons (.mk am (.mk Keyword Condition (Consequence.lowered keep) Another Alternative))
      (rest.lowered keep)

/-- The else block, when there is one, with every case section below it
lowered. -/
def OptBlock.lowered (keep : Bool) : OptBlock ε → OptBlock ε
  | .none => .none
  | .some b => .some (b.lowered keep)

/-- The case sections lowered, with their bodies. -/
def CaseList.lowered (keep : Bool) : CaseList ε → CaseList ε
  | .nil => .nil
  | .cons (.mk cm Test Statements Fallthrough) rest =>
    .cons (.mk (cm.lowered keep) Test (Statements.loweredBody keep) Fallthrough)
      (rest.lowered keep)

/-- The statements of a case body lowered: each statement itself, and every
case section below it. -/
def StatementList.loweredBody (keep : Bool) : StatementList ε → StatementList ε
  | .nil => .nil
  | .cons (.mk sm n) rest => .cons (.mk (sm.lowered keep) (n.lowered keep)) (rest.loweredBody keep)

end

/-- The formatter with the option `IndentCaseLabels` set to `b` and nothing
else changed. -/
def Formatter.withIndentCaseLabels (f : Formatter ε) (b : Bool) : Formatter ε :=
  { f with conf := { f.conf with IndentCaseLabels := b } }

/-! ## The case label and the text of a case section, as the specification words them -/

/-- The label line of a case section in the words of the specification:
`default:` without a test, `case ~ X:` when the operator of the test is `~`,
`case X:` otherwise, each followed by a line break. -/
def specCaseLabel (f : Formatter ε) (Test : Option (InfixExpression ε)) : String :=
  match Test with
  | none => "default:" ++ "\n"
  | some t =>
    if t.Operator = "~" then "case ~ " ++ f.exprString t.Right ++ ":" ++ "\n"
    else "case " ++ f.exprString t.Right ++ ":" ++ "\n"

/-- The text of one case section: its leading comments, its indentation, its
label line and its body, at the nest level that `IndentCaseLabels` selects. -/
def caseSectionOutput (f : Formatter ε) : CaseStatement ε → String
  | .mk cm Test Statements Fallthrough =>
    f.formatComment (caseNest f cm).Leading "\n" (caseNest f cm).Nest
      ++ f.indent (caseNest f cm).Nest
      ++ specCaseLabel f Test
      ++ (formatCaseSectionStatements f (caseNest f cm) Statements Fallthrough).1

/-! ## The pieces of an if statement, without the buffer they are written to -/

/-- The text that `writeBranchLead` appends before the keyword of an else-if
branch or of else with metadata record `am`. -/
def branchLead (f : Formatter ε) (am : Meta) : String :=
  if am.Leading.length > 0 ∨ f.conf.AlwaysNextLineElseIf = true then
    "\n" ++ f.formatComment am.Leading "\n" am.Nest ++ f.indent am.Nest
  else
    " "

/-- The keyword written for an else-if branch spelled `Keyword`. -/
def elseIfKeyword (f : Formatter ε) (Keyword : String) : String :=
  if f.conf.ElseIf then "else if" else Keyword

/-- The text that `writeCondition` appends for the chunk `chunk`: the chunk
line at level `nest + 1` and the closing parenthesis at level `close` when
the chunk has a line break, the chunk inline otherwise. -/
def conditionText (f : Formatter ε) (chunk : String) (nest close : Int) : String :=
  if containsLF chunk then
    "\n" ++ f.indent (nest + 1) ++ chunk ++ "\n" ++ f.indent close ++ ") "
  else
    chunk ++ ") "

/-- The chunked rendering of a condition at nest level `nest`:
`f.formatExpression(c).ChunkedString(nest, nest*f.conf.IndentWidth)`. -/
def conditionChunk (f : Formatter ε) (Condition : ε) (nest : Int) : String :=
  f.chunkedString Condition nest (nest * f.conf.IndentWidth)

/-- The text of one else-if branch of the if statement with metadata record
`m`: lead, keyword, condition and consequence block. -/
def elseIfOutput (f : Formatter ε) (m : Meta) : IfStatement ε → String
  | .mk am (.mk Keyword Condition Consequence _ _) =>
    branchLead f am ++ (elseIfKeyword f Keyword ++ " (")
      ++ conditionText f (conditionChunk f Condition am.Nest) am.Nest m.Nest
      ++ (formatBlockStatement f Consequence).1

/-- The text of the else branch: nothing without an else block, otherwise
lead, `else ` and the block. -/
def elseOutput (f : Formatter ε) : OptBlock ε → String
  | .none => ""
  | .some b => branchLead f b.GetMeta ++ "else " ++ (formatBlockStatement f b).1

/-- The text of an if statement up to the end of its consequence block. -/
def ifHeadOutput (f : Formatter ε) (m : Meta) (Keyword : String) (Condition : ε)
    (Consequence : BlockStatement ε) : String :=
  Keyword ++ " (" ++ conditionText f (conditionChunk f Condition m.Nest) m.Nest m.Nest
    ++ (formatBlockStatement f Consequence).1

/-! ## The text of a statement without its indentation -/

/-- The text that `formatStatement` appends to the indentation of the
statement with metadata record `m` and node `n`: the result of the renderer
of its kind, and nothing for a `break`, which has no renderer. -/
def statementText (f : Formatter ε) (m : Meta) : Node ε → String
  | .BlockStatement ss => (formatBlockStatement f (.mk m ss)).1
  | .ImportStatement Name => formatImportStatement f Name
  | .IncludeStatement Module => formatIncludeStatement f Module
  | .DeclareStatement Name ValueType => formatDeclareStatement f Name ValueType
  | .SetStatement Ident Operator Value => formatSetStatement f m Ident Operator Value
  | .UnsetStatement Ident => formatUnsetStatement f Ident
  | .RemoveStatement Ident => formatRemoveStatement f Ident
  | .SwitchStatement Control Cases => (formatSwitchStatement f m Control Cases).1
  | .RestartStatement => formatRestartStatement f
  | .EsiStatement => formatEsiStatement f
  | .AddStatement Ident Operator Value => formatAddStatement f m Ident Operator Value
  | .CallStatement Subroutine => formatCallStatement f Subroutine
  | .ErrorStatement Code Argument => formatErrorStatement f Code Argument
  | .LogStatement Value => formatLogStatement f m Value
  | .ReturnStatement ReturnExpression => formatReturnStatement f ReturnExpression
  | .SyntheticStatement Value => formatSyntheticStatement f m Value
  | .SyntheticBase64Statement Value => formatSyntheticBase64Statement f m Value
  | .GotoStatement Destination => formatGotoStatement f Destination
  | .GotoDestinationStatement Name => formatGotoDestinationStatement f Name
  | .FunctionCallStatement Function Arguments =>
    formatFunctionCallStatement f m Function Arguments
  | .IfStatement i => (formatIfStatement f m i).1
  | .BreakStatement => ""

/-! ## The line of a statement of a case body -/

/-- The line that the loop of `formatCaseSectionStatements` builds for one
statement of the case body. -/
def caseLine (f : Formatter ε) : Statement ε → Line
  | .mk sm n =>
    { Leading := f.formatComment (caseNest f sm).Leading "\n" ((caseNest f sm).Nest + 1)
      Trailing := f.formatComment (caseNest f sm).Trailing "\n" ((caseNest f sm).Nest + 1)
      Buffer :=
        match n with
        | .BreakStatement => f.indent ((caseNest f sm).Nest + 1) ++ "break;"
        | n => f.lineString (formatStatementWith f (caseNest f sm) n).1 }

/-- The groups closed by the grouping loop on a plain list, with the open run
appended when it is not empty. -/
def closedRuns {α : Type} (r : List (List α) × List α) : List (List α) :=
  if r.2.length > 0 then r.1 ++ [r.2] else r.1

/-! ## Theorems -/

/-! ### The loops leave the metadata of branch heads in place -/

theorem formatBlockStatement_meta (f : Formatter ε) (b : BlockStatement ε) :
    (formatBlockStatement f b).2.GetMeta = b.GetMeta := by
  cases b with
  | mk m ss => simp [formatBlockStatement, BlockStatement.GetMeta]

theorem formatAnother_meta (f : Formatter ε) (m : Meta) :
    ∀ (l : IfStatementList ε) (buf : String),
      (formatAnother f m l buf).2.toList.map IfStatement.GetMeta
        = l.toList.map IfStatement.GetMeta
  | .nil, buf => by simp [formatAnother, IfStatementList.toList]
  | .cons (.mk am (.mk _ _ _ _ _)) rest, buf => by
    simp [formatAnother, IfStatementList.toList, IfStatement.GetMeta,
      formatAnother_meta f m rest]

theorem trailingNode_formatIfStatement (f : Formatter ε) (m : Meta) (i : IfFields ε) :
    (formatIfStatement f m i).2.trailingNode = i.trailingNode := by
  cases i with
  | mk kw cond cons another alt =>
    cases alt with
    | some b =>
      simp [formatIfStatement, IfFields.trailingNode, formatBlockStatement_meta]
    | none =>
      have h := congrArg List.getLast? (formatAnother_meta f m another
        (writeCondition f (kw ++ " (")
          (f.chunkedString cond m.Nest (m.Nest * f.conf.IndentWidth)) m.Nest m.Nest
          ++ (formatBlockStatement f cons).1))
      simp only [List.getLast?_map] at h
      simp only [formatIfStatement, IfFields.trailingNode]
      cases h1 : (formatAnother f m another _).2.toList.getLast? <;>
        cases h2 : another.toList.getLast? <;> simp_all [formatBlockStatement_meta]

/-- C1: the `Trailing` field of the line that `formatStatement` returns for an
if statement renders the trailing comments of one owner: the else block when
there is one; otherwise the last else-if branch when `Another` is not empty;
otherwise the consequence block. -/
theorem formatStatement_if_trailing (f : Formatter ε) (m : Meta) (Keyword : String)
    (Condition : ε) (Consequence : BlockStatement ε) (Another : IfStatementList ε)
    (Alternative : OptBlock ε) :
    (∀ b, Alternative = .some b →
      (formatStatement f (.mk m (.IfStatement
        (.mk Keyword Condition Consequence Another Alternative)))).1.Trailing
        = f.trailing b.GetMeta.Trailing) ∧
    (∀ a, Alternative = .none → Another.toList.getLast? = some a →
      (formatStatement f (.mk m (.IfStatement
        (.mk Keyword Condition Consequence Another Alternative)))).1.Trailing
        = f.trailing a.GetMeta.Trailing) ∧
    (Alternative = .none → Another.toList = [] →
      (formatStatement f (.mk m (.IfStatement
        (.mk Keyword Condition Consequence Another Alternative)))).1.Trailing
        = f.trailing Consequence.GetMeta.Trailing) := by
  have key : (formatStatement f (.mk m (.IfStatement
        (.mk Keyword Condition Consequence Another Alternative)))).1.Trailing
      = f.trailing (IfFields.mk Keyword Condition Consequence Another
          Alternative).trailingNode.Trailing := by
    simp only [formatStatement, formatStatementWith, statementLine,
      trailingNode_formatIfStatement]
  refine ⟨?_, ?_, ?_⟩
  · intro b hb
    rw [key, hb]
    rfl
  · intro a ha hl
    rw [key, ha]
    simp only [IfFields.trailingNode, hl]
  · intro ha hl
    rw [key, ha]
    simp only [IfFields.trailingNode, hl, List.getLast?_nil]

/-- Witness of C1: the chain `if … else if … else …` carries the comment of
its else block, the chain without the else block the comment of its else-if
branch, and the plain if statement the comment of its consequence block. -/
theorem formatStatement_if_trailing_witness :
    (formatStatement (Example.formatter (Example.conf true)) Example.ifChain).1.Trailing
      = " // c3" ∧
    (formatStatement (Example.formatter (Example.conf true))
      (.mk (Example.node 1 0) (.IfStatement (.mk "if" "a" (Example.emptyBlock 2 "// c1")
        (.cons (.mk (Example.commented 1 "// x")
          (.mk "else if" "b" (Example.emptyBlock 2 "// c2") .nil .none)) .nil)
        .none)))).1.Trailing = " // x" ∧
    (formatStatement (Example.formatter (Example.conf true))
      (.mk (Example.node 1 0) (.IfStatement (.mk "if" "a" (Example.emptyBlock 2 "// c1")
        .nil .none)))).1.Trailing = " // c1" :=
  ⟨(formatStatement_if_trailing (Example.formatter (Example.conf true)) (Example.node 1 0)
      "if" "a" (Example.emptyBlock 2 "// c1")
      (.cons (.mk (Example.commented 1 "// x")
        (.mk "else if" "b" (Example.emptyBlock 2 "// c2") .nil .none)) .nil)
      (.some (Example.emptyBlock 2 "// c3"))).1 (Example.emptyBlock 2 "// c3") rfl,
   (formatStatement_if_trailing (Example.formatter (Example.conf true)) (Example.node 1 0)
      "if" "a" (Example.emptyBlock 2 "// c1")
      (.cons (.mk (Example.commented 1 "// x")
        (.mk "else if" "b" (Example.emptyBlock 2 "// c2") .nil .none)) .nil)
      .none).2.1 (.mk (Example.commented 1 "// x")
        (.mk "else if" "b" (Example.emptyBlock 2 "// c2") .nil .none)) rfl rfl,
   (formatStatement_if_trailing (Example.formatter (Example.conf true)) (Example.node 1 0)
      "if" "a" (Example.emptyBlock 2 "// c1") .nil .none).2.2 rfl rfl⟩

/-! ### Grouping by blank lines -/

theorem groupRuns_flatten {α : Type} (p : α → Bool) :
    ∀ (xs : List α) (g : List (List α)) (l : List α),
      (groupRuns p xs g l).1.flatten ++ (groupRuns p xs g l).2 = g.flatten ++ l ++ xs
  | [], g, l => by simp [groupRuns]
  | x :: xs, g, l => by
    unfold groupRuns
    split
    · rw [groupRuns_flatten p xs]; simp
    · rw [groupRuns_flatten p xs]; simp

theorem groupRuns_inv {α : Type} (p : α → Bool) :
    ∀ (xs : List α) (g : List (List α)) (l : List α), RunsInv p g l →
      RunsInv p (groupRuns p xs g l).1 (groupRuns p xs g l).2
  | [], g, l, h => by simpa [groupRuns] using h
  | x :: xs, g, l, h => by
    obtain ⟨h1, h2, h3, h4⟩ := h
    unfold groupRuns
    split
    · rename_i hp
      apply groupRuns_inv p xs
      refine ⟨?_, ?_, ?_, ?_⟩
      · intro r hr y hy
        rcases List.mem_append.1 hr with hr | hr
        · exact h1 r hr y hy
        · simp only [List.mem_singleton] at hr
          subst hr
          exact h2 y hy
      · intro y hy
        simp at hy
      · intro r hr
        by_cases hg : g = []
        · subst hg
          simp at hr
        · rw [List.tail_append_of_ne_nil hg] at hr
          rcases List.mem_append.1 hr with hr | hr
          · exact h3 r hr
          · simp only [List.mem_singleton] at hr
            subst hr
            exact h4 hg
      · intro _
        exact ⟨x, [], rfl, hp⟩
    · rename_i hp
      have hp : p x = false := by simpa using hp
      apply groupRuns_inv p xs
      refine ⟨h1, ?_, h3, ?_⟩
      · intro y hy
        cases l with
        | nil => simp at hy
        | cons a t =>
          simp only [List.cons_append, List.tail_cons, List.mem_append,
            List.mem_singleton] at hy
          rcases hy with hy | hy
          · exact h2 y (by simpa using hy)
          · rw [hy]; exact hp
      · intro hg
        obtain ⟨a, t, hl, ha⟩ := h4 hg
        exact ⟨a, t ++ [x], by simp [hl], ha⟩

theorem formatBlockLines_eq_groupRuns (f : Formatter ε) :
    ∀ (ss : StatementList ε) (g : List (List (Statement ε))) (l : List (Statement ε)),
      (formatBlockLines f ss (g.map (List.map fun s => (formatStatement f s).1))
          (l.map fun s => (formatStatement f s).1)).1
        = (((groupRuns startsGroup ss.toList g l).1.map
              (List.map fun s => (formatStatement f s).1)),
            ((groupRuns startsGroup ss.toList g l).2.map fun s => (formatStatement f s).1))
  | .nil, g, l => by simp [formatBlockLines, StatementList.toList, groupRuns]
  | .cons s rest, g, l => by
    have ih1 := formatBlockLines_eq_groupRuns f rest (g ++ [l]) ([] ++ [s])
    have ih2 := formatBlockLines_eq_groupRuns f rest g (l ++ [s])
    simp only [List.map_append, List.map_cons, List.map_nil, List.nil_append] at ih1 ih2
    simp only [formatBlockLines, StatementList.toList, groupRuns]
    by_cases hp : s.GetMeta.PreviousEmptyLines > 0
    · simp only [hp, if_true, startsGroup, decide_True, List.nil_append, ih1]
    · simp only [hp, if_false, startsGroup, decide_False, ih2]
      simp

/-- C2: the text of `formatBlockStatement` is the trimmed buffer that holds,
between the braces, the serialisation of the line groups it built; these
groups are the formatted child statements in source order, cut into runs;
inside a run no statement but the first has a positive blank-line count and
every run after the first starts with a statement that has one, so a
statement after the first starts a group exactly when its count is positive.
Five statements of which exactly those at positions 1 and 3 have a positive
count are written as the three groups `[0]`, `[1,2]`, `[3,4]`. -/
theorem formatBlockStatement_groups (f : Formatter ε) (m : Meta) (ss : StatementList ε) :
    (formatBlockStatement f (.mk m ss)).1
        = f.trimMutipleLineFeeds
            ("\x7b\n"
              ++ f.groupString
                  (if f.conf.AlignTrailingComment then f.align (closeGroups (formatBlockLines f ss [] []).1) else (closeGroups (formatBlockLines f ss [] []).1))
              ++ (if m.Infix.length > 0 then f.formatComment m.Infix "\n" m.Nest else "")
              ++ f.indent (m.Nest - 1) ++ "\x7d") ∧
    (∃ runs : List (List (Statement ε)),
      (formatBlockStatement f (.mk m ss)).1
        = f.trimMutipleLineFeeds
            ("\x7b\n"
              ++ f.groupString
                  (if f.conf.AlignTrailingComment then f.align ⟨runs.map (List.map fun s => (formatStatement f s).1)⟩ else ⟨runs.map (List.map fun s => (formatStatement f s).1)⟩)
              ++ (if m.Infix.length > 0 then f.formatComment m.Infix "\n" m.Nest else "")
              ++ f.indent (m.Nest - 1) ++ "\x7d") ∧
      (closeGroups (formatBlockLines f ss [] []).1).Lines
          = runs.map (List.map fun s => (formatStatement f s).1) ∧
      runs.flatten = ss.toList ∧
      (∀ r ∈ runs, ∀ s ∈ r.tail, ¬ s.GetMeta.PreviousEmptyLines > 0) ∧
      (∀ r ∈ runs.tail, ∃ s t, r = s :: t ∧ s.GetMeta.PreviousEmptyLines > 0)) ∧
    (closeGroups (formatBlockLines f ss [] []).1).Lines.flatten
        = ss.toList.map (fun s => (formatStatement f s).1) ∧
    (∀ s0 s1 s2 s3 s4 : Statement ε,
      ss = .cons s0 (.cons s1 (.cons s2 (.cons s3 (.cons s4 .nil)))) →
      ¬ s0.GetMeta.PreviousEmptyLines > 0 → s1.GetMeta.PreviousEmptyLines > 0 →
      ¬ s2.GetMeta.PreviousEmptyLines > 0 → s3.GetMeta.PreviousEmptyLines > 0 →
      ¬ s4.GetMeta.PreviousEmptyLines > 0 →
      (closeGroups (formatBlockLines f ss [] []).1).Lines
        = [[(formatStatement f s0).1],
           [(formatStatement f s1).1, (formatStatement f s2).1],
           [(formatStatement f s3).1, (formatStatement f s4).1]] ∧
      (formatBlockStatement f (.mk m ss)).1
        = f.trimMutipleLineFeeds
            ("\x7b\n"
              ++ f.groupString
                  (if f.conf.AlignTrailingComment then f.align ⟨[[(formatStatement f s0).1],
                [(formatStatement f s1).1, (formatStatement f s2).1],
                [(formatStatement f s3).1, (formatStatement f s4).1]]⟩ else ⟨[[(formatStatement f s0).1],
                [(formatStatement f s1).1, (formatStatement f s2).1],
                [(formatStatement f s3).1, (formatStatement f s4).1]]⟩)
              ++ (if m.Infix.length > 0 then f.formatComment m.Infix "\n" m.Nest else "")
              ++ f.indent (m.Nest - 1) ++ "\x7d")) := by
  have htext : (formatBlockStatement f (.mk m ss)).1
      = f.trimMutipleLineFeeds
          ("\x7b\n"
            ++ f.groupString
                (if f.conf.AlignTrailingComment then
                  f.align (closeGroups (formatBlockLines f ss [] []).1)
                else closeGroups (formatBlockLines f ss [] []).1)
            ++ (if m.Infix.length > 0 then f.formatComment m.Infix "\n" m.Nest else "")
            ++ f.indent (m.Nest - 1) ++ "\x7d") := by
    simp only [formatBlockStatement, blockText, blockBuffer, alignGroups]
    by_cases h : m.Infix.length > 0
    · simp only [h, if_true]
    · simp only [h, if_false, String.append_empty]
  have hrun := formatBlockLines_eq_groupRuns f ss [] []
  simp only [List.map_nil] at hrun
  have hinv : RunsInv startsGroup (groupRuns startsGroup ss.toList [] []).1
      (groupRuns startsGroup ss.toList [] []).2 :=
    groupRuns_inv startsGroup ss.toList [] [] (by simp [RunsInv])
  have hflat := groupRuns_flatten startsGroup ss.toList [] []
  simp only [List.flatten_nil, List.nil_append] at hflat
  obtain ⟨h1, h2, h3, h4⟩ := hinv
  have hex : ∃ runs : List (List (Statement ε)),
      (closeGroups (formatBlockLines f ss [] []).1).Lines
          = runs.map (List.map fun s => (formatStatement f s).1) ∧
      runs.flatten = ss.toList ∧
      (∀ r ∈ runs, ∀ s ∈ r.tail, ¬ s.GetMeta.PreviousEmptyLines > 0) ∧
      (∀ r ∈ runs.tail, ∃ s t, r = s :: t ∧ s.GetMeta.PreviousEmptyLines > 0) := by
    rw [hrun]
    cases hl : (groupRuns startsGroup ss.toList [] []).2 with
    | nil =>
      have hg : (groupRuns startsGroup ss.toList [] []).1 = [] := by
        by_contra hne
        obtain ⟨x, t, hx, _⟩ := h4 hne
        rw [hl] at hx
        exact List.noConfusion hx
      refine ⟨[], ?_, ?_, ?_, ?_⟩
      · simp [closeGroups, hg]
      · rw [hl, hg] at hflat
        simpa using hflat
      · intro r hr
        simp at hr
      · intro r hr
        simp at hr
    | cons a t =>
      refine ⟨(groupRuns startsGroup ss.toList [] []).1 ++ [a :: t], ?_, ?_, ?_, ?_⟩
      · simp [closeGroups]
      · rw [hl] at hflat
        simpa using hflat
      · intro r hr s hs
        have hps : startsGroup s = false := by
          rcases List.mem_append.1 hr with hr | hr
          · exact h1 r hr s hs
          · simp only [List.mem_singleton] at hr
            subst hr
            exact h2 s (by rw [hl]; exact hs)
        simpa [startsGroup] using hps
      · intro r hr
        have hpr : ∃ s t, r = s :: t ∧ startsGroup s = true := by
          by_cases hg : (groupRuns startsGroup ss.toList [] []).1 = []
          · rw [hg] at hr
            simp at hr
          · rw [List.tail_append_of_ne_nil hg] at hr
            rcases List.mem_append.1 hr with hr | hr
            · exact h3 r hr
            · simp only [List.mem_singleton] at hr
              subst hr
              rw [← hl]
              exact h4 hg
        obtain ⟨s, t, hr, hs⟩ := hpr
        exact ⟨s, t, hr, by simpa [startsGroup] using hs⟩
  refine ⟨htext, ?_, ?_, ?_⟩
  · obtain ⟨runs, hG, hf, ha, hb⟩ := hex
    have hG2 : closeGroups (formatBlockLines f ss [] []).1
        = ⟨runs.map (List.map fun s => (formatStatement f s).1)⟩ :=
      congrArg GroupedLines.mk hG
    exact ⟨runs, by rw [htext, hG2], hG, hf, ha, hb⟩
  · obtain ⟨runs, hG, hf, _, _⟩ := hex
    rw [hG, ← hf]
    simp [List.map_flatten]
  · intro s0 s1 s2 s3 s4 hss k0 k1 k2 k3 k4
    clear hrun hflat h1 h2 h3 h4 hex
    subst hss
    have hL : (closeGroups (formatBlockLines f
          (.cons s0 (.cons s1 (.cons s2 (.cons s3 (.cons s4 .nil))))) [] []).1).Lines
        = [[(formatStatement f s0).1],
           [(formatStatement f s1).1, (formatStatement f s2).1],
           [(formatStatement f s3).1, (formatStatement f s4).1]] := by
      simp [formatBlockLines, closeGroups, k0, k1, k2, k3, k4]
    have hL2 := congrArg GroupedLines.mk hL
    exact ⟨hL, by rw [htext]; rw [show closeGroups (formatBlockLines f
          (.cons s0 (.cons s1 (.cons s2 (.cons s3 (.cons s4 .nil))))) [] []).1 = _ from hL2]⟩

/-- Witness of C2: the five statements of `Example.five` are grouped as
`[0]`, `[1,2]`, `[3,4]`, and the block that holds them is written with a
blank line before each of the last two groups. -/
theorem formatBlockStatement_groups_witness :
    (closeGroups (formatBlockLines (Example.formatter (Example.conf true))
        Example.five [] []).1).Lines
      = [[⟨"", "", "  esi;"⟩],
         [⟨"", "", "\n  restart;"⟩, ⟨"", "", "  call a;"⟩],
         [⟨"", "", "\n  call b;"⟩, ⟨"", "", "  call c;"⟩]] ∧
    (formatBlockStatement (Example.formatter (Example.conf true))
        (.mk (Example.node 1 0) Example.five)).1
      = "\x7b\n  esi;\n\n  restart;\n  call a;\n\n  call b;\n  call c;\n\x7d" :=
  (formatBlockStatement_groups (Example.formatter (Example.conf true)) (Example.node 1 0)
    Example.five).2.2.2 _ _ _ _ _ rfl (by decide) (by decide) (by decide) (by decide)
    (by decide)

/-! ### What formatting leaves in the syntax tree -/

mutual

theorem formatStatement_snd (f : Formatter ε) :
    ∀ s : Statement ε, (formatStatement f s).2 = s.lowered f.conf.IndentCaseLabels
  | .mk m n => by
    simp only [formatStatement, Statement.lowered, formatStatementWith_snd f m n]

theorem formatStatementWith_snd (f : Formatter ε) (m : Meta) :
    ∀ n : Node ε, (formatStatementWith f m n).2 = n.lowered f.conf.IndentCaseLabels
  | .BlockStatement ss => by
    simp only [formatStatementWith, Node.lowered, formatBlockLines_snd f ss]
  | .SwitchStatement Control Cases => by
    simp only [formatStatementWith, Node.lowered, formatSwitchCases_snd f Cases]
  | .IfStatement i => by
    simp only [formatStatementWith, Node.lowered, formatIfStatement_snd f m i]
  | .ImportStatement _ => rfl
  | .IncludeStatement _ => rfl
  | .DeclareStatement _ _ => rfl
  | .SetStatement _ _ _ => rfl
  | .UnsetStatement _ => rfl
  | .RemoveStatement _ => rfl
  | .RestartStatement => rfl
  | .EsiStatement => rfl
  | .AddStatement _ _ _ => rfl
  | .CallStatement _ => rfl
  | .ErrorStatement _ _ => rfl
  | .LogStatement _ => rfl
  | .ReturnStatement _ => rfl
  | .SyntheticStatement _ => rfl
  | .SyntheticBase64Statement _ => rfl
  | .GotoStatement _ => rfl
  | .GotoDestinationStatement _ => rfl
  | .FunctionCallStatement _ _ => rfl
  | .BreakStatement => rfl

theorem formatBlockStatement_snd (f : Formatter ε) :
    ∀ b : BlockStatement ε, (formatBlockStatement f b).2 = b.lowered f.conf.IndentCaseLabels
  | .mk m ss => by
    simp only [formatBlockStatement, BlockStatement.lowered, formatBlockLines_snd f ss]

theorem formatBlockLines_snd (f : Formatter ε) :
    ∀ (ss : StatementList ε) (g : List Lines) (l : Lines),
      (formatBlockLines f ss g l).2 = ss.lowered f.conf.IndentCaseLabels
  | .nil, _, _ => rfl
  | .cons s rest, g, l => by
    simp only [formatBlockLines, StatementList.lowered, formatStatement_snd f s,
      formatBlockLines_snd f rest]

theorem formatIfStatement_snd (f : Formatter ε) (m : Meta) :
    ∀ i : IfFields ε, (formatIfStatement f m i).2 = i.lowered f.conf.IndentCaseLabels
  | .mk Keyword Condition Consequence Another .none => by
    simp only [formatIfStatement, IfFields.lowered, OptBlock.lowered,
      formatBlockStatement_snd f Consequence, formatAnother_snd f m Another]
  | .mk Keyword Condition Consequence Another (.some b) => by
    simp only [formatIfStatement, IfFields.lowered, OptBlock.lowered,
      formatBlockStatement_snd f Consequence, formatAnother_snd f m Another,
      formatBlockStatement_snd f b]

theorem formatAnother_snd (f : Formatter ε) (m : Meta) :
    ∀ (l : IfStatementList ε) (buf : String),
      (formatAnother f m l buf).2 = l.lowered f.conf.IndentCaseLabels
  | .nil, _ => rfl
  | .cons (.mk am (.mk Keyword Condition Consequence Another Alternative)) rest, buf => by
    simp only [formatAnother, IfStatementList.lowered,
      formatBlockStatement_snd f Consequence, formatAnother_snd f m rest]

theorem formatSwitchCases_snd (f : Formatter ε) :
    ∀ (cs : CaseList ε) (buf : String),
      (formatSwitchCases f cs buf).2 = cs.lowered f.conf.IndentCaseLabels
  | .nil, _ => rfl
  | .cons (.mk cm Test Statements Fallthrough) rest, buf => by
    simp only [formatSwitchCases, CaseList.lowered, formatCaseLines_snd f Statements,
      formatSwitchCases_snd f rest]
    rfl

theorem formatCaseLines_snd (f : Formatter ε) :
    ∀ (ss : StatementList ε) (g : List Lines) (l : Lines),
      (formatCaseLines f ss g l).2 = ss.loweredBody f.conf.IndentCaseLabels
  | .nil, _, _ => rfl
  | .cons (.mk sm n) rest, g, l => by
    have ih := formatStatementWith_snd f (caseNest f sm) n
    cases n <;>
      simp only [formatCaseLines, StatementList.loweredBody, formatCaseLines_snd f rest,
        ih] <;> rfl

end

/-! ### Trees that are not lowered -/

theorem meta_lowered_true (m : Meta) : m.lowered true = m := rfl

mutual

theorem statement_lowered_true : ∀ s : Statement ε, s.lowered true = s
  | .mk m n => by simp only [Statement.lowered, node_lowered_true n]

theorem node_lowered_true : ∀ n : Node ε, n.lowered true = n
  | .BlockStatement ss => by simp only [Node.lowered, statementList_lowered_true ss]
  | .SwitchStatement Control Cases => by simp only [Node.lowered, caseList_lowered_true Cases]
  | .IfStatement i => by simp only [Node.lowered, ifFields_lowered_true i]
  | .ImportStatement _ => rfl
  | .IncludeStatement _ => rfl
  | .DeclareStatement _ _ => rfl
  | .SetStatement _ _ _ => rfl
  | .UnsetStatement _ => rfl
  | .RemoveStatement _ => rfl
  | .RestartStatement => rfl
  | .EsiStatement => rfl
  | .AddStatement _ _ _ => rfl
  | .CallStatement _ => rfl
  | .ErrorStatement _ _ => rfl
  | .LogStatement _ => rfl
  | .ReturnStatement _ => rfl
  | .SyntheticStatement _ => rfl
  | .SyntheticBase64Statement _ => rfl
  | .GotoStatement _ => rfl
  | .GotoDestinationStatement _ => rfl
  | .FunctionCallStatement _ _ => rfl
  | .BreakStatement => rfl

theorem blockStatement_lowered_true : ∀ b : BlockStatement ε, b.lowered true = b
  | .mk m ss => by simp only [BlockStatement.lowered, statementList_lowered_true ss]

theorem statementList_lowered_true : ∀ ss : StatementList ε, ss.lowered true = ss
  | .nil => rfl
  | .cons s rest => by
    simp only [StatementList.lowered, statement_lowered_true s,
      statementList_lowered_true rest]

theorem ifFields_lowered_true : ∀ i : IfFields ε, i.lowered true = i
  | .mk _ _ Consequence Another Alternative => by
    simp only [IfFields.lowered, blockStatement_lowered_true Consequence,
      ifStatementList_lowered_true Another, optBlock_lowered_true Alternative]

theorem ifStatementList_lowered_true : ∀ l : IfStatementList ε, l.lowered true = l
  | .nil => rfl
  | .cons (.mk _ (.mk _ _ Consequence _ _)) rest => by
    simp only [IfStatementList.lowered, blockStatement_lowered_true Consequence,
      ifStatementList_lowered_true rest]

theorem optBlock_lowered_true : ∀ o : OptBlock ε, o.lowered true = o
  | .none => rfl
  | .some b => by simp only [OptBlock.lowered, blockStatement_lowered_true b]

theorem caseList_lowered_true : ∀ cs : CaseList ε, cs.lowered true = cs
  | .nil => rfl
  | .cons (.mk cm _ Statements _) rest => by
    simp only [CaseList.lowered, meta_lowered_true, statementList_loweredBody_true Statements,
      caseList_lowered_true rest]

theorem statementList_loweredBody_true : ∀ ss : StatementList ε, ss.loweredBody true = ss
  | .nil => rfl
  | .cons (.mk sm n) rest => by
    simp only [StatementList.loweredBody, meta_lowered_true, node_lowered_true n,
      statementList_loweredBody_true rest]

end

/-- Lowering keeps the node that owns the trailing comments of an if
statement. -/
theorem BlockStatement.GetMeta_lowered (keep : Bool) (b : BlockStatement ε) :
    (b.lowered keep).GetMeta = b.GetMeta := by
  cases b with
  | mk m ss => rfl

theorem IfFields.trailingNode_lowered (f : Formatter ε) (m : Meta) (keep : Bool)
    (i : IfFields ε) : (i.lowered keep).trailingNode = i.trailingNode := by
  have h := trailingNode_formatIfStatement (f.withIndentCaseLabels keep) m i
  rw [formatIfStatement_snd] at h
  exact h

theorem formatFunctionCallArguments_withIndentCaseLabels (f : Formatter ε) (b : Bool)
    (m : Meta) (length n : Int) :
    ∀ (args : List ε) (i : Int) (buf : String),
      formatFunctionCallArguments (f.withIndentCaseLabels b) m length n i args buf
        = formatFunctionCallArguments f m length n i args buf
  | [], _, _ => rfl
  | a :: rest, i, buf => by
    simp only [formatFunctionCallArguments]
    rw [formatFunctionCallArguments_withIndentCaseLabels f b m length n rest]
    rfl

/-! ### The two settings of `IndentCaseLabels` -/

mutual

theorem formatStatement_toggle (f : Formatter ε) :
    ∀ s : Statement ε,
      (formatStatement (f.withIndentCaseLabels false) s).1
        = (formatStatement (f.withIndentCaseLabels true) (s.lowered false)).1
  | .mk m n => by
    simp only [formatStatement, Statement.lowered, formatStatementWith_toggle f m n]

theorem formatStatementWith_toggle (f : Formatter ε) (m : Meta) :
    ∀ n : Node ε,
      (formatStatementWith (f.withIndentCaseLabels false) m n).1
        = (formatStatementWith (f.withIndentCaseLabels true) m (n.lowered false)).1
  | .BlockStatement ss => by
    simp only [formatStatementWith, Node.lowered, formatBlockLines_toggle f ss]
    rfl
  | .SwitchStatement Control Cases => by
    simp only [formatStatementWith, Node.lowered]
    have h := formatSwitchCases_toggle f Cases
      ("switch (" ++ f.exprString Control ++ ") \x7b\n")
    exact congrArg (fun t => statementLine f m (switchClose f m t) m) h
  | .IfStatement i => by
    simp only [formatStatementWith, Node.lowered, formatIfStatement_toggle f m i,
      trailingNode_formatIfStatement, IfFields.trailingNode_lowered f m]
    rfl
  | .ImportStatement _ => rfl
  | .IncludeStatement _ => rfl
  | .DeclareStatement _ _ => rfl
  | .SetStatement _ _ _ => rfl
  | .UnsetStatement _ => rfl
  | .RemoveStatement _ => rfl
  | .RestartStatement => rfl
  | .EsiStatement => rfl
  | .AddStatement _ _ _ => rfl
  | .CallStatement _ => rfl
  | .ErrorStatement _ _ => rfl
  | .LogStatement _ => rfl
  | .ReturnStatement _ => rfl
  | .SyntheticStatement _ => rfl
  | .SyntheticBase64Statement _ => rfl
  | .GotoStatement _ => rfl
  | .GotoDestinationStatement _ => rfl
  | .FunctionCallStatement _ _ => by
    simp only [formatStatementWith, Node.lowered, formatFunctionCallStatement,
      formatFunctionCallArguments_withIndentCaseLabels]
    rfl
  | .BreakStatement => rfl

theorem formatBlockStatement_toggle (f : Formatter ε) :
    ∀ b : BlockStatement ε,
      (formatBlockStatement (f.withIndentCaseLabels false) b).1
        = (formatBlockStatement (f.withIndentCaseLabels true) (b.lowered false)).1
  | .mk m ss => by
    simp only [formatBlockStatement, BlockStatement.lowered, formatBlockLines_toggle f ss]
    rfl

theorem formatBlockLines_toggle (f : Formatter ε) :
    ∀ (ss : StatementList ε) (g : List Lines) (l : Lines),
      (formatBlockLines (f.withIndentCaseLabels false) ss g l).1
        = (formatBlockLines (f.withIndentCaseLabels true) (ss.lowered false) g l).1
  | .nil, _, _ => rfl
  | .cons (.mk sm n) rest, g, l => by
    simp only [formatBlockLines, StatementList.lowered, Statement.lowered,
      formatStatement_toggle f (.mk sm n), formatBlockLines_toggle f rest]
    rfl

theorem formatIfStatement_toggle (f : Formatter ε) (m : Meta) :
    ∀ i : IfFields ε,
      (formatIfStatement (f.withIndentCaseLabels false) m i).1
        = (formatIfStatement (f.withIndentCaseLabels true) m (i.lowered false)).1
  | .mk Keyword Condition Consequence Another .none => by
    simp only [formatIfStatement, IfFields.lowered, OptBlock.lowered,
      formatBlockStatement_toggle f Consequence, formatAnother_toggle f m Another]
    rfl
  | .mk Keyword Condition Consequence Another (.some b) => by
    simp only [formatIfStatement, IfFields.lowered, OptBlock.lowered,
      formatBlockStatement_toggle f Consequence, formatAnother_toggle f m Another,
      formatBlockStatement_toggle f b, BlockStatement.GetMeta_lowered]
    rfl

theorem formatAnother_toggle (f : Formatter ε) (m : Meta) :
    ∀ (l : IfStatementList ε) (buf : String),
      (formatAnother (f.withIndentCaseLabels false) m l buf).1
        = (formatAnother (f.withIndentCaseLabels true) m (l.lowered false) buf).1
  | .nil, _ => rfl
  | .cons (.mk am (.mk Keyword Condition Consequence Another Alternative)) rest, buf => by
    simp only [formatAnother, IfStatementList.lowered,
      formatBlockStatement_toggle f Consequence, formatAnother_toggle f m rest]
    rfl

theorem formatSwitchCases_toggle (f : Formatter ε) :
    ∀ (cs : CaseList ε) (buf : String),
      (formatSwitchCases (f.withIndentCaseLabels false) cs buf).1
        = (formatSwitchCases (f.withIndentCaseLabels true) (cs.lowered false) buf).1
  | .nil, _ => rfl
  | .cons (.mk cm Test Statements Fallthrough) rest, buf => by
    simp only [formatSwitchCases, CaseList.lowered, formatCaseLines_toggle f Statements,
      formatSwitchCases_toggle f rest]
    rfl

theorem formatCaseLines_toggle (f : Formatter ε) :
    ∀ (ss : StatementList ε) (g : List Lines) (l : Lines),
      (formatCaseLines (f.withIndentCaseLabels false) ss g l).1
        = (formatCaseLines (f.withIndentCaseLabels true) (ss.loweredBody false) g l).1
  | .nil, _, _ => rfl
  | .cons (.mk sm n) rest, g, l => by
    have ih := formatStatementWith_toggle f
      (caseNest (f.withIndentCaseLabels false) sm) n
    cases n <;>
      simp only [formatCaseLines, StatementList.loweredBody, Node.lowered,
        formatCaseLines_toggle f rest]
    all_goals first
      | rfl
      | (simp only [Node.lowered] at ih; rw [ih]; rfl)

end

/-! ### The option `IndentCaseLabels` -/

/-- C3, as stated, fails: for `switch (x) { case "1": esi; break; }` the body
lines `esi;` and `break;` are indented by six spaces with `IndentCaseLabels`
set and by four spaces with it unset. -/
theorem formatSwitchStatement_toggle_counterexample :
    (formatSwitchStatement ((Example.formatter (Example.conf true)).withIndentCaseLabels true)
        (Example.node 1 0) "x" Example.cases).1
      = "switch (x) \x7b\n    case \"1\":\n      esi;\n      break;\n  \x7d" ∧
    (formatSwitchStatement ((Example.formatter (Example.conf true)).withIndentCaseLabels false)
        (Example.node 1 0) "x" Example.cases).1
      = "switch (x) \x7b\n  case \"1\":\n    esi;\n    break;\n  \x7d" ∧
    (formatCaseLines ((Example.formatter (Example.conf true)).withIndentCaseLabels true)
        Example.body [] []).1.2.map Line.Buffer = ["      esi;", "      break;"] ∧
    (formatCaseLines ((Example.formatter (Example.conf true)).withIndentCaseLabels false)
        Example.body [] []).1.2.map Line.Buffer = ["    esi;", "    break;"] := by
  decide

/-- C3, amended: with `IndentCaseLabels` unset the switch is written as it is
written with the option set once the nest level of every case section and of
every statement directly in a case body is lowered by one: the label lines
and the body lines move together. -/
theorem formatSwitchStatement_toggle (f : Formatter ε) (m : Meta) (Control : ε)
    (Cases : CaseList ε) :
    (formatSwitchStatement (f.withIndentCaseLabels false) m Control Cases).1
      = (formatSwitchStatement (f.withIndentCaseLabels true) m Control
          (Cases.lowered false)).1 := by
  have h := formatSwitchCases_toggle f Cases ("switch (" ++ f.exprString Control ++ ") \x7b\n")
  exact congrArg (fun t => switchClose f m t) h

/-- C4, as stated, fails: with `IndentCaseLabels` unset, formatting
`switch (x) { case "1": esi; break; }` leaves the case section at nest level
1 instead of 2 and its statements at 2 and 1 instead of 3 and 2, and
formatting the tree that is left gives another text. -/
theorem formatSwitchStatement_tree_counterexample :
    Example.cases.toList.map (fun c => c.GetMeta.Nest) = [2] ∧
    (formatSwitchStatement (Example.formatter (Example.conf false)) (Example.node 1 0) "x"
        Example.cases).2.toList.map (fun c => c.GetMeta.Nest) = [1] ∧
    Example.body.toList.map (fun s => s.GetMeta.Nest) = [3, 2] ∧
    (formatCaseSectionStatements (Example.formatter (Example.conf false)) (Example.node 2 0)
        Example.body false).2.toList.map (fun s => s.GetMeta.Nest) = [2, 1] ∧
    (formatSwitchStatement (Example.formatter (Example.conf false)) (Example.node 1 0) "x"
        Example.cases).1
      = "switch (x) \x7b\n  case \"1\":\n    esi;\n    break;\n  \x7d" ∧
    (formatSwitchStatement (Example.formatter (Example.conf false)) (Example.node 1 0) "x"
        (formatSwitchStatement (Example.formatter (Example.conf false)) (Example.node 1 0) "x"
          Example.cases).2).1
      = "switch (x) \x7b\ncase \"1\":\n  esi;\n  break;\n  \x7d" := by
  decide

/-- C4, amended: with `IndentCaseLabels` set, `formatSwitchStatement` leaves
the case sections as they were, so formatting them again gives the same text;
with the option unset it leaves every case section and every statement
directly in a case body one nest level lower and changes nothing else. -/
theorem formatSwitchStatement_tree (f : Formatter ε) (m : Meta) (Control : ε)
    (Cases : CaseList ε) :
    (f.conf.IndentCaseLabels = true →
      (formatSwitchStatement f m Control Cases).2 = Cases ∧
      (formatSwitchStatement f m Control (formatSwitchStatement f m Control Cases).2).1
        = (formatSwitchStatement f m Control Cases).1) ∧
    (f.conf.IndentCaseLabels = false →
      (formatSwitchStatement f m Control Cases).2 = Cases.lowered false) := by
  have h : (formatSwitchStatement f m Control Cases).2
      = Cases.lowered f.conf.IndentCaseLabels := by
    simp only [formatSwitchStatement, formatSwitchCases_snd]
  constructor
  · intro hk
    have h2 : (formatSwitchStatement f m Control Cases).2 = Cases := by
      rw [h, hk, caseList_lowered_true]
    exact ⟨h2, by rw [h2]⟩
  · intro hk
    rw [h, hk]

/-- Witness of C4 (amended): with `IndentCaseLabels` set the case sections of
`switch (x) { case "1": esi; break; }` are left as they were; with the option
unset they are left lowered. -/
theorem formatSwitchStatement_tree_witness :
    ((formatSwitchStatement (Example.formatter (Example.conf true)) (Example.node 1 0) "x"
        Example.cases).2 = Example.cases ∧
      (formatSwitchStatement (Example.formatter (Example.conf true)) (Example.node 1 0) "x"
          (formatSwitchStatement (Example.formatter (Example.conf true)) (Example.node 1 0) "x"
            Example.cases).2).1
        = (formatSwitchStatement (Example.formatter (Example.conf true)) (Example.node 1 0) "x"
            Example.cases).1) ∧
    (formatSwitchStatement (Example.formatter (Example.conf false)) (Example.node 1 0) "x"
        Example.cases).2 = Example.cases.lowered false :=
  ⟨(formatSwitchStatement_tree (Example.formatter (Example.conf true)) (Example.node 1 0) "x"
      Example.cases).1 rfl,
   (formatSwitchStatement_tree (Example.formatter (Example.conf false)) (Example.node 1 0) "x"
      Example.cases).2 rfl⟩

/-! ### Break statements and comments in a case section -/

/-- C5, on the code: a `break` that is a direct child of a case section is
written as its indentation and `break;`, but `formatStatement` has no case
for a break statement and writes its indentation only; in
`switch (x) { case "1": if (a) { break; } }` the line of the `break` is
blank. -/
theorem formatStatement_break_missing :
    (∀ (f : Formatter ε) (sm : Meta) (g : List Lines) (l : Lines),
      (formatCaseLines f (.cons (.mk sm .BreakStatement) .nil) g l).1.2.getLast?.map
          Line.Buffer
        = some (f.indent ((caseNest f sm).Nest + 1) ++ "break;")) ∧
    (∀ (f : Formatter ε) (m : Meta),
      (formatStatement f (.mk m .BreakStatement)).1.Buffer
        = (if m.PreviousEmptyLines > 0 then "\n" ++ f.indent m.Nest else f.indent m.Nest)
            ++ "") ∧
    (formatStatement (Example.formatter (Example.conf true))
        (.mk (Example.node 4 0) .BreakStatement)).1.Buffer = "        " ∧
    (formatSwitchStatement (Example.formatter (Example.conf true)) (Example.node 1 0) "x"
        Example.casesBreakInIf).1
      = "switch (x) \x7b\n    case \"1\":\n      if (a) \x7b\n        \n      \x7d\n  \x7d" := by
  refine ⟨?_, ?_, by decide, by decide⟩
  · intro f sm g l
    simp [formatCaseLines]
  · intro f m
    rfl

/-- C6, on the code: for a statement of a case body that is not a `break`
the buffer of its line is the serialised line of `formatStatement`, which
holds the leading and trailing comments of the statement; for `esi; // c` the
comment is in the buffer and in `Trailing`, and is written twice. -/
theorem formatCaseSectionStatements_comment_twice :
    (∀ (f : Formatter ε) (sm : Meta) (g : List Lines) (l : Lines),
      (formatCaseLines f (.cons (.mk sm .EsiStatement) .nil) g l).1.2.getLast?
        = some
            { Leading := f.formatComment (caseNest f sm).Leading "\n" ((caseNest f sm).Nest + 1)
              Trailing :=
                f.formatComment (caseNest f sm).Trailing "\n" ((caseNest f sm).Nest + 1)
              Buffer := f.lineString
                { Leading := f.formatComment (caseNest f sm).Leading "\n" (caseNest f sm).Nest
                  Trailing := f.trailing (caseNest f sm).Trailing
                  Buffer :=
                    (if (caseNest f sm).PreviousEmptyLines > 0 then
                        "\n" ++ f.indent (caseNest f sm).Nest
                      else f.indent (caseNest f sm).Nest) ++ "esi;" } }) ∧
    (formatCaseLines (Example.formatter (Example.conf true)) Example.bodyCommented [] []).1
      = ([], [{ Leading := "", Trailing := "        // c\n", Buffer := "      esi; // c" }]) ∧
    (formatSwitchStatement (Example.formatter (Example.conf true)) (Example.node 1 0) "x"
        Example.casesCommented).1
      = "switch (x) \x7b\n    case \"1\":\n      esi; // c        // c\n\n  \x7d" := by
  refine ⟨?_, by decide, by decide⟩
  intro f sm g l
  simp [formatCaseLines, formatStatementWith, statementLine, formatEsiStatement]

/-! ### Return and remove -/

/-- C7: a return statement with a value is written `return (E);` exactly when
`ReturnStatementParenthesis` is set and the formatter is not inside a
functional subroutine, and `return E;` in every other case, so always inside
a functional subroutine; without a value it is written `return;`. -/
theorem formatReturnStatement_parenthesis (f : Formatter ε) (e : ε) :
    (f.conf.ReturnStatementParenthesis = true → f.isFunctionalSubroutine = false →
      formatReturnStatement f (some e) = "return (" ++ f.exprString e ++ ");") ∧
    (¬ (f.conf.ReturnStatementParenthesis = true ∧ f.isFunctionalSubroutine = false) →
      formatReturnStatement f (some e) = "return " ++ f.exprString e ++ ";") ∧
    (f.isFunctionalSubroutine = true →
      formatReturnStatement f (some e) = "return " ++ f.exprString e ++ ";") ∧
    formatReturnStatement f none = "return;" := by
  have hp : "return" ++ " (" = "return (" := by decide
  have hs : "return" ++ " " = "return " := by decide
  have hc : ")" ++ ";" = ");" := by decide
  have hyes : f.conf.ReturnStatementParenthesis = true → f.isFunctionalSubroutine = false →
      formatReturnStatement f (some e) = "return (" ++ f.exprString e ++ ");" := by
    intro h1 h2
    simp only [formatReturnStatement, h1, h2, Bool.not_false, Bool.and_self, if_true]
    rw [hp, String.append_assoc, hc]
  have hno : ¬ (f.conf.ReturnStatementParenthesis = true ∧ f.isFunctionalSubroutine = false) →
      formatReturnStatement f (some e) = "return " ++ f.exprString e ++ ";" := by
    intro h
    have hb : (f.conf.ReturnStatementParenthesis && !f.isFunctionalSubroutine) = false := by
      cases h1 : f.conf.ReturnStatementParenthesis <;> cases h2 : f.isFunctionalSubroutine <;>
        simp_all
    simp only [formatReturnStatement, hb, Bool.false_eq_true, if_false]
    rw [hs, String.append_empty]
  refine ⟨hyes, hno, ?_, rfl⟩
  intro h
  exact hno (by simp [h])

/-- Witness of C7: outside a functional subroutine `return x;` is written
`return (x);` with the flag set and `return x;` with the flag unset; inside a
functional subroutine it is written `return x;` with the flag set. -/
theorem formatReturnStatement_parenthesis_witness :
    formatReturnStatement (Example.formatter (Example.confWith true)) (some "x")
        = "return (x);" ∧
    formatReturnStatement (Example.formatter (Example.confWith false)) (some "x")
        = "return x;" ∧
    formatReturnStatement
        { Example.formatter (Example.confWith true) with isFunctionalSubroutine := true }
        (some "x") = "return x;" :=
  ⟨(formatReturnStatement_parenthesis (Example.formatter (Example.confWith true)) "x").1
      rfl rfl,
   (formatReturnStatement_parenthesis (Example.formatter (Example.confWith false)) "x").2.1
      (by decide),
   (formatReturnStatement_parenthesis
      { Example.formatter (Example.confWith true) with isFunctionalSubroutine := true }
      "x").2.2.1 rfl⟩

/-- C8: a remove statement with identifier `x` is written `unset x;` when
`ShouldUseUnset` is set and `remove x;` when it is not. -/
theorem formatRemoveStatement_alias (f : Formatter ε) (x : String) :
    (f.conf.ShouldUseUnset = true → formatRemoveStatement f x = "unset " ++ x ++ ";") ∧
    (f.conf.ShouldUseUnset = false → formatRemoveStatement f x = "remove " ++ x ++ ";") := by
  constructor
  · intro h
    simp only [formatRemoveStatement, h, if_true]
  · intro h
    simp only [formatRemoveStatement, h, Bool.false_eq_true, if_false]

/-- Witness of C8: `remove req.http.A;` with and without the alias. -/
theorem formatRemoveStatement_alias_witness :
    formatRemoveStatement (Example.formatter (Example.confWith true)) "req.http.A"
        = "unset req.http.A;" ∧
    formatRemoveStatement (Example.formatter (Example.confWith false)) "req.http.A"
        = "remove req.http.A;" :=
  ⟨(formatRemoveStatement_alias (Example.formatter (Example.confWith true)) "req.http.A").1 rfl,
   (formatRemoveStatement_alias (Example.formatter (Example.confWith false)) "req.http.A").2
     rfl⟩

/-! ### Case labels and fallthrough -/

theorem caseLabel_eq (f : Formatter ε) (buf : String) (Test : Option (InfixExpression ε)) :
    caseLabel f buf Test = buf ++ specCaseLabel f Test := by
  have hc : "case " ++ "~ " = "case ~ " := by decide
  have hn : ":" ++ "\n" = ":\n" := by decide
  have hd : "default:" ++ "\n" = "default:\n" := by decide
  cases Test with
  | none => simp only [caseLabel, specCaseLabel, hd]
  | some t =>
    by_cases h : t.Operator = "~"
    · simp only [caseLabel, specCaseLabel, h, if_true, String.append_assoc, hn]
      rw [← String.append_assoc "case " "~ ", hc]
    · simp only [caseLabel, specCaseLabel, h, if_false, String.append_assoc, hn]

theorem formatSwitchCases_foldl (f : Formatter ε) :
    ∀ (cs : CaseList ε) (buf : String),
      (formatSwitchCases f cs buf).1
        = cs.toList.foldl (fun b c => b ++ caseSectionOutput f c) buf
  | .nil, _ => rfl
  | .cons (.mk cm Test Statements Fallthrough) rest, buf => by
    simp only [formatSwitchCases, CaseList.toList, List.foldl_cons,
      formatSwitchCases_foldl f rest, caseLabel_eq, caseSectionOutput,
      formatCaseSectionStatements, String.append_assoc]

/-- C9: the text of a switch statement is the opening line followed, for each
case section in order, by the leading comments, the indentation, the label
line and the body of the section; the label line is `default:` without a
test, `case ~ X:` when the operator of the test is `~` and `case X:` for any
other operator, with `X` the single-line rendering of the right-hand
expression, and ends with a line break. -/
theorem formatSwitchStatement_labels (f : Formatter ε) (m : Meta) (Control : ε)
    (Cases : CaseList ε) :
    (formatSwitchStatement f m Control Cases).1
      = switchClose f m
          (Cases.toList.foldl (fun buf c => buf ++ caseSectionOutput f c)
            ("switch (" ++ f.exprString Control ++ ") \x7b\n")) ∧
    (∀ (cm : Meta) (ss : StatementList ε) (ft : Bool),
      caseSectionOutput f (.mk cm none ss ft)
        = f.formatComment (caseNest f cm).Leading "\n" (caseNest f cm).Nest
            ++ f.indent (caseNest f cm).Nest ++ ("default:" ++ "\n")
            ++ (formatCaseSectionStatements f (caseNest f cm) ss ft).1) ∧
    (∀ (cm : Meta) (t : InfixExpression ε) (ss : StatementList ε) (ft : Bool),
      t.Operator = "~" →
      caseSectionOutput f (.mk cm (some t) ss ft)
        = f.formatComment (caseNest f cm).Leading "\n" (caseNest f cm).Nest
            ++ f.indent (caseNest f cm).Nest ++ ("case ~ " ++ f.exprString t.Right ++ ":" ++ "\n")
            ++ (formatCaseSectionStatements f (caseNest f cm) ss ft).1) ∧
    (∀ (cm : Meta) (t : InfixExpression ε) (ss : StatementList ε) (ft : Bool),
      t.Operator ≠ "~" →
      caseSectionOutput f (.mk cm (some t) ss ft)
        = f.formatComment (caseNest f cm).Leading "\n" (caseNest f cm).Nest
            ++ f.indent (caseNest f cm).Nest ++ ("case " ++ f.exprString t.Right ++ ":" ++ "\n")
            ++ (formatCaseSectionStatements f (caseNest f cm) ss ft).1) := by
  refine ⟨?_, ?_, ?_, ?_⟩
  · simp only [formatSwitchStatement, formatSwitchCases_foldl]
  · intro cm ss ft
    rfl
  · intro cm t ss ft h
    simp only [caseSectionOutput, specCaseLabel, h, if_true]
  · intro cm t ss ft h
    simp only [caseSectionOutput, specCaseLabel, h, if_false]

/-- Witness of C9: the sections `case ~ "a":`, `case "b":` and `default:` of
one switch. -/
theorem formatSwitchStatement_labels_witness :
    caseSectionOutput (Example.formatter (Example.conf true))
        (.mk (Example.node 2 0) (some ⟨"~", "\"a\""⟩) .nil false) = "    case ~ \"a\":\n" ∧
    caseSectionOutput (Example.formatter (Example.conf true))
        (.mk (Example.node 2 0) (some ⟨"==", "\"b\""⟩) .nil false) = "    case \"b\":\n" :=
  ⟨((formatSwitchStatement_labels (Example.formatter (Example.conf true)) (Example.node 1 0)
      "x" .nil).2.2.1 (Example.node 2 0) ⟨"~", "\"a\""⟩ .nil false rfl),
   ((formatSwitchStatement_labels (Example.formatter (Example.conf true)) (Example.node 1 0)
      "x" .nil).2.2.2 (Example.node 2 0) ⟨"==", "\"b\""⟩ .nil false (by decide))⟩

/-- C10: the untrimmed text of `formatCaseSectionStatements` is the rendered
statement groups followed by the indentation of the nest level of the section
plus one and `fallthrough;` when the section is marked fallthrough, and by
nothing when it is not. -/
theorem formatCaseSectionStatements_fallthrough (f : Formatter ε) (m : Meta)
    (Statements : StatementList ε) (Fallthrough : Bool) :
    (formatCaseSectionStatements f m Statements Fallthrough).1
      = f.trimMutipleLineFeeds
          (f.groupString (alignGroups f (closeGroups (formatCaseLines f Statements [] []).1))
            ++ (if Fallthrough = true then f.indent (m.Nest + 1) ++ "fallthrough;" else "")) := by
  cases Fallthrough with
  | false =>
    simp only [formatCaseSectionStatements, caseSectionText, caseSectionBuffer,
      Bool.false_eq_true, if_false, String.append_empty]
  | true =>
    simp only [formatCaseSectionStatements, caseSectionText, caseSectionBuffer, if_true,
      String.append_assoc]

/-! ### The text of an if statement, branch by branch -/

theorem writeBranchLead_eq (f : Formatter ε) (buf : String) (am : Meta) :
    writeBranchLead f buf am = buf ++ branchLead f am := by
  unfold writeBranchLead branchLead
  split <;> simp only [String.append_assoc]

theorem writeCondition_eq (f : Formatter ε) (buf chunk : String) (nest close : Int) :
    writeCondition f buf chunk nest close = buf ++ conditionText f chunk nest close := by
  unfold writeCondition conditionText
  split <;> simp only [String.append_assoc]

theorem foldl_append_string {α : Type} (g : α → String) :
    ∀ (l : List α) (buf : String),
      l.foldl (fun b a => b ++ g a) buf = buf ++ l.foldl (fun b a => b ++ g a) ""
  | [], buf => by simp
  | a :: rest, buf => by
    simp only [List.foldl_cons]
    rw [foldl_append_string g rest (buf ++ g a), foldl_append_string g rest ("" ++ g a)]
    simp only [String.append_assoc, String.empty_append]

theorem formatAnother_foldl (f : Formatter ε) (m : Meta) :
    ∀ (l : IfStatementList ε) (buf : String),
      (formatAnother f m l buf).1 = l.toList.foldl (fun b a => b ++ elseIfOutput f m a) buf
  | .nil, _ => rfl
  | .cons (.mk am (.mk Keyword Condition Consequence Another Alternative)) rest, buf => by
    simp only [formatAnother, IfStatementList.toList, List.foldl_cons,
      formatAnother_foldl f m rest, writeBranchLead_eq, writeCondition_eq, elseIfOutput,
      elseIfKeyword, conditionChunk, String.append_assoc]

theorem formatIfStatement_output (f : Formatter ε) (m : Meta) (Keyword : String)
    (Condition : ε) (Consequence : BlockStatement ε) (Another : IfStatementList ε)
    (Alternative : OptBlock ε) :
    (formatIfStatement f m (.mk Keyword Condition Consequence Another Alternative)).1
      = Another.toList.foldl (fun b a => b ++ elseIfOutput f m a)
          (ifHeadOutput f m Keyword Condition Consequence)
        ++ elseOutput f Alternative := by
  cases Alternative with
  | none =>
    simp only [formatIfStatement, formatAnother_foldl, writeCondition_eq, elseOutput,
      ifHeadOutput, conditionChunk, String.append_assoc, String.append_empty]
  | some b =>
    simp only [formatIfStatement, formatAnother_foldl, writeBranchLead_eq, writeCondition_eq,
      elseOutput, ifHeadOutput, conditionChunk, String.append_assoc]

/-- C11: the text of an if statement with keyword `K` at nest level `n`
begins with `K (`, the chunked condition `C` and `) ` when `C` has no line
break, and with `K (`, a line break, `indent(n+1)`, `C`, a line break,
`indent(n)` and `) ` when it has one; the consequence block follows. -/
theorem formatIfStatement_condition (f : Formatter ε) (m : Meta) (Keyword : String)
    (Condition : ε) (Consequence : BlockStatement ε) (Another : IfStatementList ε)
    (Alternative : OptBlock ε) :
    (containsLF (f.chunkedString Condition m.Nest (m.Nest * f.conf.IndentWidth)) = false →
      ∃ rest : String,
        (formatIfStatement f m (.mk Keyword Condition Consequence Another Alternative)).1
          = Keyword ++ " (" ++ f.chunkedString Condition m.Nest (m.Nest * f.conf.IndentWidth)
              ++ ") " ++ (formatBlockStatement f Consequence).1 ++ rest) ∧
    (containsLF (f.chunkedString Condition m.Nest (m.Nest * f.conf.IndentWidth)) = true →
      ∃ rest : String,
        (formatIfStatement f m (.mk Keyword Condition Consequence Another Alternative)).1
          = Keyword ++ " (" ++ "\n" ++ f.indent (m.Nest + 1)
              ++ f.chunkedString Condition m.Nest (m.Nest * f.conf.IndentWidth) ++ "\n"
              ++ f.indent m.Nest ++ ") " ++ (formatBlockStatement f Consequence).1 ++ rest) := by
  have h := formatIfStatement_output f m Keyword Condition Consequence Another Alternative
  rw [foldl_append_string] at h
  constructor
  · intro hc
    refine ⟨Another.toList.foldl (fun b a => b ++ elseIfOutput f m a) ""
      ++ elseOutput f Alternative, ?_⟩
    rw [h]
    simp only [ifHeadOutput, conditionText, conditionChunk, hc, Bool.false_eq_true, if_false,
      String.append_assoc]
  · intro hc
    refine ⟨Another.toList.foldl (fun b a => b ++ elseIfOutput f m a) ""
      ++ elseOutput f Alternative, ?_⟩
    rw [h]
    simp only [ifHeadOutput, conditionText, conditionChunk, hc, if_true, String.append_assoc]

/-- Witness of C11: `if (a) {}` is written inline and `if (a &&\n b) {}` with
its condition on a line of its own. -/
theorem formatIfStatement_condition_witness :
    (∃ rest : String,
      (formatIfStatement (Example.formatter (Example.conf true)) (Example.node 1 0)
          (.mk "if" "a" (Example.plainBlock 2) .nil .none)).1
        = "if" ++ " (" ++ "a" ++ ") "
            ++ (formatBlockStatement (Example.formatter (Example.conf true))
                (Example.plainBlock 2)).1 ++ rest) ∧
    (∃ rest : String,
      (formatIfStatement (Example.formatter (Example.conf true)) (Example.node 1 0)
          Example.ifWrapped).1
        = "if" ++ " (" ++ "\n" ++ "    " ++ "a &&\n b" ++ "\n" ++ "  " ++ ") "
            ++ (formatBlockStatement (Example.formatter (Example.conf true))
                (Example.plainBlock 2)).1 ++ rest) :=
  ⟨(formatIfStatement_condition (Example.formatter (Example.conf true)) (Example.node 1 0)
      "if" "a" (Example.plainBlock 2) .nil .none).1 (by decide),
   (formatIfStatement_condition (Example.formatter (Example.conf true)) (Example.node 1 0)
      "if" "a &&\n b" (Example.plainBlock 2) .nil .none).2 (by decide)⟩

/-- C12: the text of an if statement is its head followed by its else-if
branches in order and its else branch; the keyword of an else-if branch and
of else is preceded by a line break, the rendered leading comments of the
branch and its indentation when the branch has a leading comment or
`AlwaysNextLineElseIf` is set, and by one space otherwise. -/
theorem formatIfStatement_branch_lead (f : Formatter ε) (m : Meta) (Keyword : String)
    (Condition : ε) (Consequence : BlockStatement ε) (Another : IfStatementList ε)
    (Alternative : OptBlock ε) :
    (formatIfStatement f m (.mk Keyword Condition Consequence Another Alternative)).1
      = Another.toList.foldl (fun b a => b ++ elseIfOutput f m a)
          (ifHeadOutput f m Keyword Condition Consequence)
        ++ elseOutput f Alternative ∧
    (∀ (am : Meta) (kw : String) (c : ε) (cons : BlockStatement ε) (an : IfStatementList ε)
        (al : OptBlock ε),
      (am.Leading.length > 0 ∨ f.conf.AlwaysNextLineElseIf = true →
        elseIfOutput f m (.mk am (.mk kw c cons an al))
          = "\n" ++ f.formatComment am.Leading "\n" am.Nest ++ f.indent am.Nest
              ++ (elseIfKeyword f kw ++ " (")
              ++ conditionText f (conditionChunk f c am.Nest) am.Nest m.Nest
              ++ (formatBlockStatement f cons).1) ∧
      (¬ (am.Leading.length > 0 ∨ f.conf.AlwaysNextLineElseIf = true) →
        elseIfOutput f m (.mk am (.mk kw c cons an al))
          = " " ++ (elseIfKeyword f kw ++ " (")
              ++ conditionText f (conditionChunk f c am.Nest) am.Nest m.Nest
              ++ (formatBlockStatement f cons).1)) ∧
    (∀ b : BlockStatement ε,
      (b.GetMeta.Leading.length > 0 ∨ f.conf.AlwaysNextLineElseIf = true →
        elseOutput f (.some b)
          = "\n" ++ f.formatComment b.GetMeta.Leading "\n" b.GetMeta.Nest
              ++ f.indent b.GetMeta.Nest ++ "else " ++ (formatBlockStatement f b).1) ∧
      (¬ (b.GetMeta.Leading.length > 0 ∨ f.conf.AlwaysNextLineElseIf = true) →
        elseOutput f (.some b) = " " ++ "else " ++ (formatBlockStatement f b).1)) := by
  refine ⟨formatIfStatement_output f m Keyword Condition Consequence Another Alternative,
    ?_, ?_⟩
  · intro am kw c cons an al
    constructor
    · intro h
      simp only [elseIfOutput, branchLead, h, if_true]
    · intro h
      simp only [elseIfOutput, branchLead, h, if_false]
  · intro b
    constructor
    · intro h
      simp only [elseOutput, branchLead, h, if_true]
    · intro h
      simp only [elseOutput, branchLead, h, if_false]

/-- Witness of C12: an else-if branch with a leading comment starts on a new
line, one without follows a space. -/
theorem formatIfStatement_branch_lead_witness :
    elseIfOutput (Example.formatter (Example.conf true)) (Example.node 1 0)
        (Example.elsif (Example.led 1 "// x"))
      = "\n  // x\n  elsif (b) \x7b\n  \x7d" ∧
    elseIfOutput (Example.formatter (Example.conf true)) (Example.node 1 0)
        (Example.elsif (Example.node 1 0))
      = " elsif (b) \x7b\n  \x7d" ∧
    elseOutput (Example.formatter (Example.conf true)) (.some (.mk (Example.led 2 "// y") .nil))
      = "\n    // y\n    else \x7b\n  \x7d" ∧
    elseOutput (Example.formatter (Example.conf true)) (.some (Example.plainBlock 2))
      = " else \x7b\n  \x7d" :=
  ⟨((formatIfStatement_branch_lead (Example.formatter (Example.conf true)) (Example.node 1 0)
      "if" "a" (Example.plainBlock 2) .nil .none).2.1 (Example.led 1 "// x") "elsif" "b"
      (Example.plainBlock 2) .nil .none).1 (by decide),
   ((formatIfStatement_branch_lead (Example.formatter (Example.conf true)) (Example.node 1 0)
      "if" "a" (Example.plainBlock 2) .nil .none).2.1 (Example.node 1 0) "elsif" "b"
      (Example.plainBlock 2) .nil .none).2 (by decide),
   ((formatIfStatement_branch_lead (Example.formatter (Example.conf true)) (Example.node 1 0)
      "if" "a" (Example.plainBlock 2) .nil .none).2.2 (.mk (Example.led 2 "// y") .nil)).1
      (by decide),
   ((formatIfStatement_branch_lead (Example.formatter (Example.conf true)) (Example.node 1 0)
      "if" "a" (Example.plainBlock 2) .nil .none).2.2 (Example.plainBlock 2)).2 (by decide)⟩

/-- C13: the text of an if statement starts with its own keyword whatever the
option `ElseIf`; an else-if branch is written with `else if` when `ElseIf` is
set and with its own keyword when it is not; the else branch is written with
`else `. -/
theorem formatIfStatement_keyword (f : Formatter ε) (m : Meta) (Keyword : String)
    (Condition : ε) (Consequence : BlockStatement ε) (Another : IfStatementList ε)
    (Alternative : OptBlock ε) :
    (formatIfStatement f m (.mk Keyword Condition Consequence Another Alternative)).1
      = Keyword ++ (" (" ++ conditionText f (conditionChunk f Condition m.Nest) m.Nest m.Nest
          ++ (formatBlockStatement f Consequence).1
          ++ Another.toList.foldl (fun b a => b ++ elseIfOutput f m a) ""
          ++ elseOutput f Alternative) ∧
    (∀ (am : Meta) (kw : String) (c : ε) (cons : BlockStatement ε) (an : IfStatementList ε)
        (al : OptBlock ε),
      (f.conf.ElseIf = true →
        elseIfOutput f m (.mk am (.mk kw c cons an al))
          = branchLead f am ++ ("else if" ++ " (")
              ++ conditionText f (conditionChunk f c am.Nest) am.Nest m.Nest
              ++ (formatBlockStatement f cons).1) ∧
      (f.conf.ElseIf = false →
        elseIfOutput f m (.mk am (.mk kw c cons an al))
          = branchLead f am ++ (kw ++ " (")
              ++ conditionText f (conditionChunk f c am.Nest) am.Nest m.Nest
              ++ (formatBlockStatement f cons).1)) ∧
    (∀ b : BlockStatement ε,
      elseOutput f (.some b)
        = branchLead f b.GetMeta ++ "else " ++ (formatBlockStatement f b).1) := by
  refine ⟨?_, ?_, ?_⟩
  · rw [formatIfStatement_output, foldl_append_string]
    simp only [ifHeadOutput, String.append_assoc]
  · intro am kw c cons an al
    constructor
    · intro h
      simp only [elseIfOutput, elseIfKeyword, h, if_true]
    · intro h
      simp only [elseIfOutput, elseIfKeyword, h, Bool.false_eq_true, if_false]
  · intro b
    rfl

/-- Witness of C13: the branch `elsif (b) {}` with `ElseIf` set and unset. -/
theorem formatIfStatement_keyword_witness :
    elseIfOutput (Example.formatter (Example.confElseIf true)) (Example.node 1 0)
        (Example.elsif (Example.node 1 0))
      = " else if (b) \x7b\n  \x7d" ∧
    elseIfOutput (Example.formatter (Example.confElseIf false)) (Example.node 1 0)
        (Example.elsif (Example.node 1 0))
      = " elsif (b) \x7b\n  \x7d" :=
  ⟨((formatIfStatement_keyword (Example.formatter (Example.confElseIf true)) (Example.node 1 0)
      "if" "a" (Example.plainBlock 2) .nil .none).2.1 (Example.node 1 0) "elsif" "b"
      (Example.plainBlock 2) .nil .none).1 rfl,
   ((formatIfStatement_keyword (Example.formatter (Example.confElseIf false)) (Example.node 1 0)
      "if" "a" (Example.plainBlock 2) .nil .none).2.1 (Example.node 1 0) "elsif" "b"
      (Example.plainBlock 2) .nil .none).2 rfl⟩

/-! ### The line of `fallthrough;` -/

/-- C16, on the code: `formatCaseSectionStatements` writes nothing after
`fallthrough;`, and the loop of `formatSwitchStatement` continues with the
comments and indentation of the next section or with the closing brace; in
`switch (x) { case "1": esi; fallthrough; default: esi; break; }` the label
`default:` follows `fallthrough;` on the same line. -/
theorem formatSwitchStatement_fallthrough_line :
    (∀ (f : Formatter ε) (cm : Meta) (ss : StatementList ε),
      (formatCaseSectionStatements f cm ss true).1
        = f.trimMutipleLineFeeds
            (f.groupString (alignGroups f (closeGroups (formatCaseLines f ss [] []).1))
              ++ f.indent (cm.Nest + 1) ++ "fallthrough;")) ∧
    (∀ (f : Formatter ε) (c next : CaseStatement ε) (rest : CaseList ε) (buf : String),
      (formatSwitchCases f (.cons c (.cons next rest)) buf).1
        = (formatSwitchCases f rest
            (buf ++ caseSectionOutput f c ++ caseSectionOutput f next)).1) ∧
    (formatSwitchStatement (Example.formatter (Example.conf true)) (Example.node 1 0) "x"
        Example.casesFallthrough).1
      = "switch (x) \x7b\n    case \"1\":\n      esi;\n      fallthrough;    default:\n      esi;\n      break;\n  \x7d" ∧
    (formatSwitchStatement (Example.formatter (Example.conf true)) (Example.node 1 0) "x"
        (.cons (.mk (Example.node 2 0) (some ⟨"==", "\"1\""⟩)
          (.cons (.mk (Example.node 3 0) .EsiStatement) .nil) true) .nil)).1
      = "switch (x) \x7b\n    case \"1\":\n      esi;\n      fallthrough;  \x7d" := by
  refine ⟨?_, ?_, by decide, by decide⟩
  · intro f cm ss
    simp only [formatCaseSectionStatements, caseSectionText, caseSectionBuffer, if_true]
  · intro f c next rest buf
    simp only [formatSwitchCases_foldl, CaseList.toList, List.foldl_cons]

/-! ### The closing parenthesis of an else-if branch and the level of else -/

/-- C17, on the code: for an else-if branch with metadata record `am` of the
if statement with metadata record `m`, the chunk line is indented at
`am.Nest + 1` but the closing `) ` at `m.Nest`, the level of the if statement,
not at `am.Nest`; in `if (a) {} elsif (b &&\n c) {}` with the if statement at
level 1 and the branch at level 2 the closing parenthesis is indented by two
spaces, not by four. -/
theorem formatIfStatement_elseif_close :
    (∀ (f : Formatter ε) (m am : Meta) (kw : String) (c : ε) (cons : BlockStatement ε)
        (an : IfStatementList ε) (al : OptBlock ε) (buf : String),
      (formatAnother f m (.cons (.mk am (.mk kw c cons an al)) .nil) buf).1
        = buf ++ branchLead f am ++ (elseIfKeyword f kw ++ " (")
            ++ (if containsLF (f.chunkedString c am.Nest (am.Nest * f.conf.IndentWidth)) then
                  "\n" ++ f.indent (am.Nest + 1)
                    ++ f.chunkedString c am.Nest (am.Nest * f.conf.IndentWidth) ++ "\n"
                    ++ f.indent m.Nest ++ ") "
                else f.chunkedString c am.Nest (am.Nest * f.conf.IndentWidth) ++ ") ")
            ++ (formatBlockStatement f cons).1) ∧
    (formatIfStatement (Example.formatter (Example.conf true)) (Example.node 1 0)
        Example.ifElsifWrapped).1
      = "if (a) \x7b\n  \x7d elsif (\n      b &&\n c\n  ) \x7b\n    \x7d" := by
  refine ⟨?_, by decide⟩
  intro f m am kw c cons an al buf
  rw [formatAnother_foldl]
  simp only [IfStatementList.toList, List.foldl_cons, List.foldl_nil, elseIfOutput,
    conditionText, conditionChunk, String.append_assoc]

/-- C20: when the else block with metadata record `bm` has a leading comment
or `AlwaysNextLineElseIf` is set, the keyword `else` is written on a new line
after `indent(bm.Nest)`, while the text of the block ends, before trimming,
with `indent(bm.Nest - 1)` and the closing brace: the two levels differ by
one. -/
theorem formatIfStatement_else_levels (f : Formatter ε) (m : Meta) (Keyword : String)
    (Condition : ε) (Consequence : BlockStatement ε) (Another : IfStatementList ε)
    (bm : Meta) (ss : StatementList ε)
    (h : bm.Leading.length > 0 ∨ f.conf.AlwaysNextLineElseIf = true) :
    (formatIfStatement f m
        (.mk Keyword Condition Consequence Another (.some (.mk bm ss)))).1
      = Another.toList.foldl (fun b a => b ++ elseIfOutput f m a)
          (ifHeadOutput f m Keyword Condition Consequence)
        ++ ("\n" ++ f.formatComment bm.Leading "\n" bm.Nest ++ f.indent bm.Nest ++ "else "
          ++ (formatBlockStatement f (.mk bm ss)).1) ∧
    (∃ inner : String,
      (formatBlockStatement f (.mk bm ss)).1
        = f.trimMutipleLineFeeds (inner ++ f.indent (bm.Nest - 1) ++ "\x7d")) ∧
    bm.Nest - 1 ≠ bm.Nest := by
  refine ⟨?_, ?_, by omega⟩
  · rw [formatIfStatement_output]
    simp only [elseOutput, branchLead, BlockStatement.GetMeta, h, if_true, String.append_assoc]
  · simp only [formatBlockStatement, blockText, blockBuffer]
    exact ⟨_, rfl⟩

/-- Witness of C20: with `AlwaysNextLineElseIf` set, `if (a) {} else {}` at
level 1 with its blocks at level 2 has `else` after four spaces and the
closing brace of the else block after two. -/
theorem formatIfStatement_else_levels_witness :
    (formatIfStatement (Example.formatter Example.confNextLine) (Example.node 1 0)
        (.mk "if" "a" (Example.plainBlock 2) .nil (.some (.mk (Example.node 2 0) .nil)))).1
      = "if (a) \x7b\n  \x7d" ++ ("\n" ++ "" ++ "    " ++ "else " ++ "\x7b\n  \x7d") :=
  (formatIfStatement_else_levels (Example.formatter Example.confNextLine) (Example.node 1 0)
    "if" "a" (Example.plainBlock 2) .nil (Example.node 2 0) .nil (by decide)).1

/-! ### The line of a statement that is not a block -/

/-- C18: for a statement at nest level `n` that is not a block, the line of
`formatStatement` has the leading comments rendered at level `n` in `Leading`
and `P ++ indent(n) ++ T` in `Buffer`, with `T` the text of its kind and `P` a
line break when the blank-line count is positive and empty otherwise,
whatever the leading comments. -/
theorem formatStatement_line (f : Formatter ε) (m : Meta) (n : Node ε)
    (h : ∀ ss, n ≠ .BlockStatement ss) :
    (formatStatement f (.mk m n)).1.Leading = f.formatComment m.Leading "\n" m.Nest ∧
    (formatStatement f (.mk m n)).1.Buffer
      = (if m.PreviousEmptyLines > 0 then "\n" else "") ++ f.indent m.Nest
          ++ statementText f m n := by
  have hb : ∀ t : String,
      (if m.PreviousEmptyLines > 0 then "\n" ++ f.indent m.Nest else f.indent m.Nest) ++ t
        = (if m.PreviousEmptyLines > 0 then "\n" else "") ++ f.indent m.Nest ++ t := by
    intro t
    split <;> simp only [String.empty_append]
  cases n with
  | BlockStatement ss => exact absurd rfl (h ss)
  | _ =>
    constructor
    · rfl
    · simp only [formatStatement, formatStatementWith, statementLine, statementText,
        formatSwitchStatement, hb]

/-- Witness of C18: `esi;` at nest level 1 after a blank line, with a leading
comment. -/
theorem formatStatement_line_witness :
    (formatStatement (Example.formatter (Example.conf true))
        (.mk { Leading := [⟨"// x"⟩], Trailing := [], Infix := [], Nest := 1,
               PreviousEmptyLines := 1 } .EsiStatement)).1.Leading = "  // x\n" ∧
    (formatStatement (Example.formatter (Example.conf true))
        (.mk { Leading := [⟨"// x"⟩], Trailing := [], Infix := [], Nest := 1,
               PreviousEmptyLines := 1 } .EsiStatement)).1.Buffer
      = "\n" ++ "  " ++ "esi;" :=
  formatStatement_line (Example.formatter (Example.conf true))
    { Leading := [⟨"// x"⟩], Trailing := [], Infix := [], Nest := 1, PreviousEmptyLines := 1 }
    .EsiStatement (fun _ h => Node.noConfusion h)

/-! ### The terminating semicolon -/

/-- C14: the text of the renderer of import, include, declare, set, add,
unset, remove, restart, esi, call, error, log, synthetic, synthetic.base64,
return, goto and function-call statements ends with `;`, whatever the
expression renderer returns; a goto destination is written as its bare
name. -/
theorem renderers_end_with_semicolon (f : Formatter ε) (m : Meta) :
    (∀ Name, ∃ t, formatImportStatement f Name = t ++ ";") ∧
    (∀ Module, ∃ t, formatIncludeStatement f Module = t ++ ";") ∧
    (∀ Name ValueType, ∃ t, formatDeclareStatement f Name ValueType = t ++ ";") ∧
    (∀ Ident Operator Value, ∃ t, formatSetStatement f m Ident Operator Value = t ++ ";") ∧
    (∀ Ident Operator Value, ∃ t, formatAddStatement f m Ident Operator Value = t ++ ";") ∧
    (∀ Ident, ∃ t, formatUnsetStatement f Ident = t ++ ";") ∧
    (∀ Ident, ∃ t, formatRemoveStatement f Ident = t ++ ";") ∧
    (∃ t, formatRestartStatement f = t ++ ";") ∧
    (∃ t, formatEsiStatement f = t ++ ";") ∧
    (∀ Subroutine, ∃ t, formatCallStatement f Subroutine = t ++ ";") ∧
    (∀ Code Argument, ∃ t, formatErrorStatement f Code Argument = t ++ ";") ∧
    (∀ Value, ∃ t, formatLogStatement f m Value = t ++ ";") ∧
    (∀ Value, ∃ t, formatSyntheticStatement f m Value = t ++ ";") ∧
    (∀ Value, ∃ t, formatSyntheticBase64Statement f m Value = t ++ ";") ∧
    (∀ ReturnExpression, ∃ t, formatReturnStatement f ReturnExpression = t ++ ";") ∧
    (∀ Destination, ∃ t, formatGotoStatement f Destination = t ++ ";") ∧
    (∀ Function Arguments, ∃ t,
      formatFunctionCallStatement f m Function Arguments = t ++ ";") ∧
    (∀ Name, formatGotoDestinationStatement f Name = Name) := by
  have hp : ");" = ")" ++ ";" := by decide
  refine ⟨?_, ?_, ?_, ?_, ?_, ?_, ?_, ?_, ?_, ?_, ?_, ?_, ?_, ?_, ?_, ?_, ?_, ?_⟩
  · intro Name; exact ⟨_, rfl⟩
  · intro Module; exact ⟨_, rfl⟩
  · intro Name ValueType; exact ⟨_, rfl⟩
  · intro Ident Operator Value; exact ⟨_, rfl⟩
  · intro Ident Operator Value; exact ⟨_, rfl⟩
  · intro Ident; exact ⟨_, rfl⟩
  · intro Ident; exact ⟨_, rfl⟩
  · exact ⟨"restart", show "restart;" = "restart" ++ ";" by decide⟩
  · exact ⟨"esi", show "esi;" = "esi" ++ ";" by decide⟩
  · intro Subroutine; exact ⟨_, rfl⟩
  · intro Code Argument; exact ⟨_, rfl⟩
  · intro Value; exact ⟨_, rfl⟩
  · intro Value; exact ⟨_, rfl⟩
  · intro Value; exact ⟨_, rfl⟩
  · intro ReturnExpression; exact ⟨_, rfl⟩
  · intro Destination; exact ⟨_, rfl⟩
  · intro Function Arguments
    refine ⟨formatFunctionCallArguments f m (bufLen (Function ++ "("))
      Arguments.length 0 Arguments (Function ++ "(") ++ ")", ?_⟩
    simp only [formatFunctionCallStatement, hp, String.append_assoc]
  · intro Name; rfl

/-! ### The number of groups -/

theorem caseNest_previousEmptyLines (f : Formatter ε) (m : Meta) :
    (caseNest f m).PreviousEmptyLines = m.PreviousEmptyLines := by
  unfold caseNest
  split <;> rfl

theorem formatCaseLines_eq_groupRuns (f : Formatter ε) :
    ∀ (ss : StatementList ε) (g : List (List (Statement ε))) (l : List (Statement ε)),
      (formatCaseLines f ss (g.map (List.map (caseLine f))) (l.map (caseLine f))).1
        = (((groupRuns startsGroup ss.toList g l).1.map (List.map (caseLine f))),
            ((groupRuns startsGroup ss.toList g l).2.map (caseLine f)))
  | .nil, g, l => by simp [formatCaseLines, StatementList.toList, groupRuns]
  | .cons (.mk sm n) rest, g, l => by
    have ih1 := formatCaseLines_eq_groupRuns f rest (g ++ [l]) ([] ++ [.mk sm n])
    have ih2 := formatCaseLines_eq_groupRuns f rest g (l ++ [.mk sm n])
    simp only [List.map_append, List.map_cons, List.map_nil, List.nil_append] at ih1 ih2
    by_cases hp : sm.PreviousEmptyLines > 0
    · cases n <;>
        simp only [formatCaseLines, StatementList.toList, groupRuns, startsGroup,
          Statement.GetMeta, caseNest_previousEmptyLines, hp, if_true, decide_True,
          List.nil_append, ← ih1, caseLine]
    · cases n <;>
        simp only [formatCaseLines, StatementList.toList, groupRuns, startsGroup,
          Statement.GetMeta, caseNest_previousEmptyLines, hp, if_false, decide_False,
          Bool.false_eq_true, ← ih2, caseLine]

theorem groupRuns_length {α : Type} (p : α → Bool) :
    ∀ (xs : List α) (g : List (List α)) (l : List α),
      (groupRuns p xs g l).1.length = g.length + xs.countP p
  | [], g, l => by simp [groupRuns]
  | x :: xs, g, l => by
    unfold groupRuns
    by_cases hp : p x = true
    · simp only [hp, if_true, groupRuns_length p xs, List.length_append, List.length_singleton,
        List.countP_cons_of_pos _ _ hp]
      omega
    · simp only [hp, if_false, Bool.false_eq_true, groupRuns_length p xs,
        List.countP_cons_of_neg _ _ hp]

theorem groupRuns_open_ne_nil {α : Type} (p : α → Bool) :
    ∀ (xs : List α) (g : List (List α)) (l : List α), xs ≠ [] ∨ l ≠ [] →
      (groupRuns p xs g l).2 ≠ []
  | [], g, l, h => by
    rcases h with h | h
    · exact absurd rfl h
    · simpa [groupRuns] using h
  | x :: xs, g, l, _ => by
    unfold groupRuns
    split
    · exact groupRuns_open_ne_nil p xs _ _ (Or.inr (by simp))
    · exact groupRuns_open_ne_nil p xs _ _ (Or.inr (by simp))

theorem groupRuns_prefix {α : Type} (p : α → Bool) :
    ∀ (xs : List α) (g : List (List α)) (l : List α),
      ∃ t rest, (groupRuns p xs g l).1 ++ [(groupRuns p xs g l).2] = g ++ (l ++ t) :: rest
  | [], g, l => ⟨[], [], by simp [groupRuns]⟩
  | x :: xs, g, l => by
    unfold groupRuns
    split
    · obtain ⟨t, rest, h⟩ := groupRuns_prefix p xs (g ++ [l]) ([] ++ [x])
      exact ⟨[], ([] ++ [x] ++ t) :: rest, by rw [h]; simp⟩
    · obtain ⟨t, rest, h⟩ := groupRuns_prefix p xs g (l ++ [x])
      exact ⟨[x] ++ t, rest, by rw [h]; simp⟩

/-- The groups closed by the grouping loop on a non-empty list: one more than
the number of elements that satisfy `p`, none empty but possibly the first,
and the first empty exactly when the first element satisfies `p`. -/
theorem closedRuns_groupRuns {α : Type} (p : α → Bool) (x : α) (xs : List α) :
    (closedRuns (groupRuns p (x :: xs) [] [])).length = (x :: xs).countP p + 1 ∧
    (∀ r ∈ (closedRuns (groupRuns p (x :: xs) [] [])).tail, r ≠ []) ∧
    ((closedRuns (groupRuns p (x :: xs) [] [])).head? = some [] ↔ p x = true) := by
  have hne : (groupRuns p (x :: xs) [] []).2 ≠ [] :=
    groupRuns_open_ne_nil p (x :: xs) [] [] (Or.inl (by simp))
  have hpos : (groupRuns p (x :: xs) [] []).2.length > 0 := List.length_pos.2 hne
  have hclosed : closedRuns (groupRuns p (x :: xs) [] [])
      = (groupRuns p (x :: xs) [] []).1 ++ [(groupRuns p (x :: xs) [] []).2] := by
    simp only [closedRuns, hpos, if_true]
  have hinv := groupRuns_inv p (x :: xs) [] [] (by simp [RunsInv])
  obtain ⟨_, _, h3, h4⟩ := hinv
  refine ⟨?_, ?_, ?_⟩
  · rw [hclosed, List.length_append, groupRuns_length]
    simp
  · intro r hr
    rw [hclosed] at hr
    by_cases hg : (groupRuns p (x :: xs) [] []).1 = []
    · rw [hg] at hr
      simp at hr
    · rw [List.tail_append_of_ne_nil hg] at hr
      rcases List.mem_append.1 hr with hr | hr
      · obtain ⟨y, t, hy, _⟩ := h3 r hr
        rw [hy]
        exact List.cons_ne_nil _ _
      · simp only [List.mem_singleton] at hr
        rw [hr]
        exact hne
  · rw [hclosed]
    by_cases hp : p x = true
    · have hstep : groupRuns p (x :: xs) [] [] = groupRuns p xs ([] ++ [[]]) ([] ++ [x]) := by
        simp only [groupRuns, hp, if_true]
      obtain ⟨t, rest, h⟩ := groupRuns_prefix p xs ([] ++ [[]]) ([] ++ [x])
      rw [hstep, h]
      simp [hp]
    · have hstep : groupRuns p (x :: xs) [] [] = groupRuns p xs [] ([] ++ [x]) := by
        simp only [groupRuns, hp, if_false, Bool.false_eq_true]
      obtain ⟨t, rest, h⟩ := groupRuns_prefix p xs [] ([] ++ [x])
      rw [hstep, h]
      simp [hp]

theorem closeGroups_map {α : Type} (fn : α → Line) (r : List (List α) × List α) :
    (closeGroups (r.1.map (List.map fn), r.2.map fn)).Lines
      = (closedRuns r).map (List.map fn) := by
  unfold closeGroups closedRuns
  by_cases h : r.2.length > 0
  · simp [h]
  · simp [h]

theorem mapped_runs_props {α : Type} (fn : α → Line) (G : List (List α)) (k : Nat) (q : Prop)
    (h : G.length = k ∧ (∀ r ∈ G.tail, r ≠ []) ∧ (G.head? = some [] ↔ q)) :
    (G.map (List.map fn)).length = k ∧ (∀ r ∈ (G.map (List.map fn)).tail, r ≠ []) ∧
    ((G.map (List.map fn)).head? = some [] ↔ q) := by
  obtain ⟨h1, h2, h3⟩ := h
  refine ⟨by simpa using h1, ?_, ?_⟩
  · intro r hr
    rw [← List.map_tail] at hr
    obtain ⟨r', hr', rfl⟩ := List.mem_map.1 hr
    have := h2 r' hr'
    simpa using this
  · rw [← h3]
    cases G with
    | nil => simp
    | cons a t => simp

/-- C19: `formatBlockStatement`, and likewise `formatCaseSectionStatements`,
writes the serialisation of the line groups built by its loop; for a
non-empty statement list these are one group more than there are statements
with a positive blank-line count, every group but the first is non-empty and
the first is empty exactly when the first statement has a positive count.
For an empty list no group is built and the empty list of groups is
written. -/
theorem statement_groups_count (f : Formatter ε) (m : Meta) (Fallthrough : Bool) :
    (∀ ss : StatementList ε,
      (formatBlockStatement f (.mk m ss)).1
        = f.trimMutipleLineFeeds
          ("\x7b\n"
            ++ f.groupString
                (if f.conf.AlignTrailingComment then f.align (closeGroups (formatBlockLines f ss [] []).1) else (closeGroups (formatBlockLines f ss [] []).1))
            ++ (if m.Infix.length > 0 then f.formatComment m.Infix "\n" m.Nest else "")
            ++ f.indent (m.Nest - 1) ++ "\x7d")) ∧
    (∀ ss : StatementList ε,
      (formatCaseSectionStatements f m ss Fallthrough).1
        = f.trimMutipleLineFeeds
          (f.groupString
              (if f.conf.AlignTrailingComment then f.align (closeGroups (formatCaseLines f ss [] []).1) else (closeGroups (formatCaseLines f ss [] []).1))
            ++ (if Fallthrough = true then f.indent (m.Nest + 1) ++ "fallthrough;" else ""))) ∧
    ((closeGroups (formatBlockLines f .nil [] []).1).Lines = [] ∧
      (formatBlockStatement f (.mk m .nil)).1
        = f.trimMutipleLineFeeds
          ("\x7b\n"
            ++ f.groupString
                (if f.conf.AlignTrailingComment then f.align ⟨[]⟩ else ⟨[]⟩)
            ++ (if m.Infix.length > 0 then f.formatComment m.Infix "\n" m.Nest else "")
            ++ f.indent (m.Nest - 1) ++ "\x7d")) ∧
    ((closeGroups (formatCaseLines f .nil [] []).1).Lines = [] ∧
      (formatCaseSectionStatements f m .nil Fallthrough).1
        = f.trimMutipleLineFeeds
          (f.groupString
              (if f.conf.AlignTrailingComment then f.align ⟨[]⟩ else ⟨[]⟩)
            ++ (if Fallthrough = true then f.indent (m.Nest + 1) ++ "fallthrough;" else ""))) ∧
    (∀ (s : Statement ε) (rest : StatementList ε),
      (closeGroups (formatBlockLines f (.cons s rest) [] []).1).Lines.length
          = (StatementList.cons s rest).toList.countP
              (fun s => decide (s.GetMeta.PreviousEmptyLines > 0)) + 1 ∧
      (∀ r ∈ (closeGroups (formatBlockLines f (.cons s rest) [] []).1).Lines.tail, r ≠ []) ∧
      ((closeGroups (formatBlockLines f (.cons s rest) [] []).1).Lines.head? = some [] ↔
        s.GetMeta.PreviousEmptyLines > 0)) ∧
    (∀ (s : Statement ε) (rest : StatementList ε),
      (closeGroups (formatCaseLines f (.cons s rest) [] []).1).Lines.length
          = (StatementList.cons s rest).toList.countP
              (fun s => decide (s.GetMeta.PreviousEmptyLines > 0)) + 1 ∧
      (∀ r ∈ (closeGroups (formatCaseLines f (.cons s rest) [] []).1).Lines.tail, r ≠ []) ∧
      ((closeGroups (formatCaseLines f (.cons s rest) [] []).1).Lines.head? = some [] ↔
        s.GetMeta.PreviousEmptyLines > 0)) := by
  have hblock : ∀ ss : StatementList ε,
      (formatBlockStatement f (.mk m ss)).1
        = f.trimMutipleLineFeeds
            ("\x7b\n"
              ++ f.groupString
                  (if f.conf.AlignTrailingComment then
                    f.align (closeGroups (formatBlockLines f ss [] []).1)
                  else closeGroups (formatBlockLines f ss [] []).1)
              ++ (if m.Infix.length > 0 then f.formatComment m.Infix "\n" m.Nest else "")
              ++ f.indent (m.Nest - 1) ++ "\x7d") := by
    intro ss
    simp only [formatBlockStatement, blockText, blockBuffer, alignGroups]
    by_cases h : m.Infix.length > 0
    · simp only [h, if_true]
    · simp only [h, if_false, String.append_empty]
  have hcase : ∀ ss : StatementList ε,
      (formatCaseSectionStatements f m ss Fallthrough).1
        = f.trimMutipleLineFeeds
            (f.groupString
                (if f.conf.AlignTrailingComment then
                  f.align (closeGroups (formatCaseLines f ss [] []).1)
                else closeGroups (formatCaseLines f ss [] []).1)
              ++ (if Fallthrough = true then f.indent (m.Nest + 1) ++ "fallthrough;"
                  else "")) := by
    intro ss
    simp only [formatCaseSectionStatements, caseSectionText, caseSectionBuffer, alignGroups]
    cases Fallthrough with
    | false => simp only [Bool.false_eq_true, if_false, String.append_empty]
    | true => simp only [if_true, String.append_assoc]
  refine ⟨hblock, hcase, ⟨rfl, hblock .nil⟩, ⟨rfl, hcase .nil⟩, ?_, ?_⟩
  · intro s rest
    have hrun := formatBlockLines_eq_groupRuns f (.cons s rest) [] []
    simp only [List.map_nil] at hrun
    rw [hrun, closeGroups_map]
    have hp := closedRuns_groupRuns startsGroup s rest.toList
    have hq : (startsGroup s = true) ↔ s.GetMeta.PreviousEmptyLines > 0 := by
      simp [startsGroup]
    rw [hq] at hp
    exact mapped_runs_props _ _ _ _ hp
  · intro s rest
    have hrun := formatCaseLines_eq_groupRuns f (.cons s rest) [] []
    simp only [List.map_nil] at hrun
    rw [hrun, closeGroups_map]
    have hp := closedRuns_groupRuns startsGroup s rest.toList
    have hq : (startsGroup s = true) ↔ s.GetMeta.PreviousEmptyLines > 0 := by
      simp [startsGroup]
    rw [hq] at hp
    exact mapped_runs_props _ _ _ _ hp

/-- Witness of C19: the five statements of `Example.five` give three groups,
in a block and in a case body, and both functions write three groups; an
empty block is written without a group. -/
theorem statement_groups_count_witness :
    (closeGroups (formatBlockLines (Example.formatter (Example.conf true))
        Example.five [] []).1).Lines.length = 2 + 1 ∧
    (closeGroups (formatCaseLines (Example.formatter (Example.conf true))
        Example.five [] []).1).Lines.length = 2 + 1 ∧
    (formatBlockStatement (Example.formatter (Example.conf true))
        (.mk (Example.node 1 0) Example.five)).1
      = "\x7b\n  esi;\n\n  restart;\n  call a;\n\n  call b;\n  call c;\n\x7d" ∧
    (formatCaseSectionStatements (Example.formatter (Example.conf true)) (Example.node 1 0)
        Example.five false).1
      = "  esi;\n\n  restart;\n  call a;\n\n  call b;\n  call c;\n" ∧
    (formatBlockStatement (Example.formatter (Example.conf true))
        (.mk (Example.node 1 0) .nil)).1 = "\x7b\n\x7d" :=
  ⟨((statement_groups_count (Example.formatter (Example.conf true)) (Example.node 1 0)
      false).2.2.2.2.1 _ _).1,
   ((statement_groups_count (Example.formatter (Example.conf true)) (Example.node 1 0)
      false).2.2.2.2.2 _ _).1,
   (statement_groups_count (Example.formatter (Example.conf true)) (Example.node 1 0)
      false).1 Example.five,
   (statement_groups_count (Example.formatter (Example.conf true)) (Example.node 1 0)
      false).2.1 Example.five,
   ((statement_groups_count (Example.formatter (Example.conf true)) (Example.node 1 0)
      false).2.2.1).2⟩

end Falco
